import Mathlib

/-!
# MIDI keyboard firmware: key-transition to MIDI translation

A shallow embedding of `process_keys_MIDI` and of one iteration of the
`midi_behaviour` loop (src/midi_behaviour.c), with the constants of
src/keyboard.h.  Bytes (`uint8_t`) are natural numbers reduced modulo 256
where the C code stores them; `pitch_0` (`int8_t`) is an integer.
-/

namespace MidiKeyboard

set_option maxRecDepth 8000

/-! ## keyboard.h -/

/-- Number of keys selected in keyboard.h (`#define KEYS_NUMBER 36`). -/
def KEYS_NUMBER : Nat := 36

/-- First key of the keyboard (`#define FIRST_KEY 0`). -/
def FIRST_KEY : Nat := 0

/-- Octave offset of the keyboard (`#define DEFAULT_PITCH_0_OFFSET 36`). -/
def DEFAULT_PITCH_0_OFFSET : Nat := 36

/-- Number of notes per octave. -/
def OCTAVE : Nat := 12

/-- Number of available notes. -/
def NOTE_NUMBER : Nat := 108

/-- Initial value of `pitch_0`: `(FIRST_KEY + DEFAULT_PITCH_0_OFFSET)`. -/
def DEFAULT_PITCH_0 : Nat := FIRST_KEY + DEFAULT_PITCH_0_OFFSET

/-- Largest value of `pitch_0` for a keyboard of `keysNumber` keys:
`(NOTE_NUMBER - KEYS_NUMBER)`. -/
def MAX_PITCH_0 (keysNumber : Nat) : Nat := NOTE_NUMBER - keysNumber

def KEY_0_MSK : Nat := 0x04
def KEY_1_MSK : Nat := 0x08
def KEY_2_MSK : Nat := 0x10
def KEY_3_MSK : Nat := 0x20
def KEY_4_MSK : Nat := 0x40
def KEY_5_MSK : Nat := 0x80
def KEYS_RELEVANT_MSK : Nat := 0xFC

/-! ## midi_behaviour.h (not part of the sources at hand) -/

/-- Modelled from the spec: the macro `MIDI_MSG_NOTE_ON` of midi_behaviour.h,
absent from the sources; the spec gives Note On as `0x9n`. -/
def MIDI_MSG_NOTE_ON : Nat := 0x90

/-- Modelled from the spec: the macro `MIDI_MSG_CONTROLLER_CHANGE` of
midi_behaviour.h, absent from the sources; the spec gives Control Change as
`0xBn`. -/
def MIDI_MSG_CONTROLLER_CHANGE : Nat := 0xB0

/-- Modelled from the spec: the macro `MIDI_MSG_PITCH_BEND` of
midi_behaviour.h, absent from the sources; the spec gives Pitch Bend as
`0xEn`. -/
def MIDI_MSG_PITCH_BEND : Nat := 0xE0

/-- The build-time configuration: what the preprocessor sees.  `KEYS_NUMBER`,
`ENABLE_VIBRATO` and `ENABLE_TREMOLO` are set in keyboard.h; `MIDI_C0` and
`MIDI_CHANNEL` are macros of midi_behaviour.h, which is absent from the
sources, and are therefore left as parameters. -/
structure Build where
  KEYS_NUMBER : Nat
  ENABLE_VIBRATO : Bool
  ENABLE_TREMOLO : Bool
  MIDI_C0 : Nat
  MIDI_CHANNEL : Nat

/-- The build as keyboard.h configures it (36 keys, tremolo only), with the
values the spec gives for the two macros of midi_behaviour.h: `MIDI_C0 = 60`
and channel 0. -/
def configured : Build :=
  ⟨KEYS_NUMBER, false, true, 60, 0⟩

/-! ## Global state -/

/-- The global variables of keyboard.h that MIDI mode touches, and the bytes
written to the serial link so far (oldest first). -/
structure State where
  keys_0 : Nat
  keys_0_last : Nat
  keys_6 : Nat
  keys_6_last : Nat
  keys_12 : Nat
  keys_12_last : Nat
  keys_18 : Nat
  keys_18_last : Nat
  keys_24 : Nat
  keys_24_last : Nat
  keys_30 : Nat
  keys_30_last : Nat
  keys_36 : Nat
  keys_36_last : Nat
  keys_42 : Nat
  keys_42_last : Nat
  buttons_settings : Nat
  buttons_settings_last : Nat
  pitch_0 : Int
  ADC_vibrato : Nat
  ADC_vibrato_flag : Nat
  ADC_tremolo : Nat
  ADC_tremolo_flag : Nat
  usart : List Nat
  deriving DecidableEq

/-- Modelled from the spec: the macro `USART_SEND` of midi_behaviour.h, absent
from the sources; the spec describes a byte-oriented link of 8-bit words, so
sending appends the low eight bits of the argument to the stream. -/
def USART_SEND (x : Nat) (s : State) : State :=
  { s with usart := s.usart ++ [x % 256] }

/-! ## process_keys_MIDI -/

/-- The local variables of `process_keys_MIDI`: the two queues and their
lengths.  Each queue is an array of `KEYS_NUMBER` cells, the list of its
cells.  C defines no effect for a write at an index of `KEYS_NUMBER` or
above: such a write changes no cell and is recorded, index and value, in
`stray_ON` or `stray_OFF`. -/
structure Locals where
  note_ON_queue : List Nat
  note_ON_queue_len : Nat
  note_OFF_queue : List Nat
  note_OFF_queue_len : Nat
  stray_ON : List (Nat × Nat)
  stray_OFF : List (Nat × Nat)
  deriving DecidableEq

/-- The assignment `a[i] = v` on an array of `uint8_t`: the cell `i` takes the
value when `i` is inside the array, and no cell changes when it is not. -/
def array_store (a : List Nat) (i v : Nat) : List Nat :=
  if i < a.length then a.set i (v % 256) else a

/-- The record of the assignments `a[i] = v` that fall outside the array
`a`. -/
def stray_store (a : List Nat) (stray : List (Nat × Nat)) (i v : Nat) : List (Nat × Nat) :=
  if i < a.length then stray else stray ++ [(i, v % 256)]

/-- One `if … else if …` pair of `process_keys_MIDI`, for the key of mask
`msk` in the group `keys` / `keys_last`; `note` is the value of
`MIDI_C0 + current_pitch_0 + n`. -/
def key_block (keys keys_last msk note : Nat) (l : Locals) : Locals :=
  if (keys &&& msk != 0) && !(keys_last &&& msk != 0) then
    { l with
      note_ON_queue := array_store l.note_ON_queue l.note_ON_queue_len note
      stray_ON := stray_store l.note_ON_queue l.stray_ON l.note_ON_queue_len note
      note_ON_queue_len := (l.note_ON_queue_len + 1) % 256 }
  else if !(keys &&& msk != 0) && (keys_last &&& msk != 0) then
    { l with
      note_OFF_queue := array_store l.note_OFF_queue l.note_OFF_queue_len note
      stray_OFF := stray_store l.note_OFF_queue l.stray_OFF l.note_OFF_queue_len note
      note_OFF_queue_len := (l.note_OFF_queue_len + 1) % 256 }
  else l

/-- One `if(keys_g != keys_g_last){ … }` block of `process_keys_MIDI`, for
the group whose first key has index `g`. -/
def group_block (keys keys_last c0 current_pitch_0 g : Nat) (l : Locals) : Locals :=
  if keys != keys_last then
    l |> key_block keys keys_last KEY_0_MSK (c0 + current_pitch_0 + (g + 0))
      |> key_block keys keys_last KEY_1_MSK (c0 + current_pitch_0 + (g + 1))
      |> key_block keys keys_last KEY_2_MSK (c0 + current_pitch_0 + (g + 2))
      |> key_block keys keys_last KEY_3_MSK (c0 + current_pitch_0 + (g + 3))
      |> key_block keys keys_last KEY_4_MSK (c0 + current_pitch_0 + (g + 4))
      |> key_block keys keys_last KEY_5_MSK (c0 + current_pitch_0 + (g + 5))
  else l

/-- The conversion `uint8_t current_pitch_0 = pitch_0`. -/
def current_pitch_0 (s : State) : Nat := (s.pitch_0 % 256).toNat

/-- Lines 30 to 523 of midi_behaviour.c: the local variables when the queues
have been filled.  Both queues are declared with `KEYS_NUMBER` cells, which C
leaves uninitialised and which start at 0 here; no cell is read before it is
written.  A block under `#if KEYS_NUMBER >= n` is present exactly when the
build has `KEYS_NUMBER >= n`. -/
def fill_queues (b : Build) (s : State) : Locals :=
  let p := current_pitch_0 s
  let l : Locals :=
    ⟨List.replicate b.KEYS_NUMBER 0, 0, List.replicate b.KEYS_NUMBER 0, 0, [], []⟩
  let l := group_block s.keys_0 s.keys_0_last b.MIDI_C0 p 0 l
  let l := group_block s.keys_6 s.keys_6_last b.MIDI_C0 p 6 l
  let l := if b.KEYS_NUMBER ≥ 12 then group_block s.keys_12 s.keys_12_last b.MIDI_C0 p 12 l else l
  let l := if b.KEYS_NUMBER ≥ 18 then group_block s.keys_18 s.keys_18_last b.MIDI_C0 p 18 l else l
  let l := if b.KEYS_NUMBER ≥ 24 then group_block s.keys_24 s.keys_24_last b.MIDI_C0 p 24 l else l
  let l := if b.KEYS_NUMBER ≥ 30 then group_block s.keys_30 s.keys_30_last b.MIDI_C0 p 30 l else l
  let l := if b.KEYS_NUMBER ≥ 36 then group_block s.keys_36 s.keys_36_last b.MIDI_C0 p 36 l else l
  let l := if b.KEYS_NUMBER ≥ 42 then group_block s.keys_42 s.keys_42_last b.MIDI_C0 p 42 l else l
  l

/-- The loop `for(i = …; i < len; i++){ USART_SEND(queue[i]); USART_SEND(velocity); }`
with `n` iterations left, that is `n = len - i`; reading a cell outside the
array has no result. -/
def send_queue (queue : List Nat) (velocity : Nat) : Nat → Nat → State → Option State
  | 0, _, s => some s
  | n + 1, i, s =>
    match queue[i]? with
    | some x =>
      send_queue queue velocity n ((i + 1) % 256) (USART_SEND velocity (USART_SEND x s))
    | none => none

/-- Lines 525 to 543 of midi_behaviour.c: sending the queued notes. -/
def send_notes (b : Build) (l : Locals) (s : State) : Option State :=
  if l.note_ON_queue_len + l.note_OFF_queue_len > 0 then
    (send_queue l.note_ON_queue 0x40 l.note_ON_queue_len 0
        (USART_SEND (MIDI_MSG_NOTE_ON ||| b.MIDI_CHANNEL) s)).bind
      (send_queue l.note_OFF_queue 0x00 l.note_OFF_queue_len 0)
  else some s

/-- The function `process_keys_MIDI` of midi_behaviour.c.  A call in which a
queue write fell outside its array has undefined behaviour in C: it has no
result, `none`. -/
def process_keys_MIDI (b : Build) (s : State) : Option State :=
  let l := fill_queues b s
  if l.stray_ON.isEmpty && l.stray_OFF.isEmpty then send_notes b l s else none

/-! ## midi_behaviour: one iteration of the endless loop -/

/-- Functions of keyboard.c, which is absent from the sources: keyboard.h only
declares them.  They are parameters of the loop. -/
structure Extern where
  read_pots : State → State
  read_buttons : State → State
  process_settings : State → State

/-- Lines 561 to 570: the vibrato message, under `#ifdef ENABLE_VIBRATO`. -/
def send_vibrato (b : Build) (s : State) : State :=
  if b.ENABLE_VIBRATO then
    if s.ADC_vibrato_flag != 0 then
      { (s |> USART_SEND MIDI_MSG_PITCH_BEND |> USART_SEND 0x00
           |> USART_SEND s.ADC_vibrato) with ADC_vibrato_flag := 0 }
    else s
  else s

/-- Lines 571 to 580: the tremolo message, under `#ifdef ENABLE_TREMOLO`. -/
def send_tremolo (b : Build) (s : State) : State :=
  if b.ENABLE_TREMOLO then
    if s.ADC_tremolo_flag != 0 then
      { (s |> USART_SEND MIDI_MSG_CONTROLLER_CHANGE |> USART_SEND 0x07
           |> USART_SEND s.ADC_tremolo) with ADC_tremolo_flag := 0 }
    else s
  else s

/-- Lines 557 to 580: sampling the potentiometers and sending their messages. -/
def loop_pots (b : Build) (e : Extern) (s : State) : State :=
  let s := if b.ENABLE_VIBRATO || b.ENABLE_TREMOLO then e.read_pots s else s
  let s := send_vibrato b s
  let s := send_tremolo b s
  s

/-- Lines 583 to 586: `read_buttons(); process_settings();`. -/
def loop_read (e : Extern) (s : State) : State :=
  e.process_settings (e.read_buttons s)

/-- Line 588: `buttons_settings_last = buttons_settings;`. -/
def keep_settings (s : State) : State :=
  { s with buttons_settings_last := s.buttons_settings }

/-- Lines 593 to 612: `keys_N_last = keys_N;` for every group of the build. -/
def keep_keys (b : Build) (s : State) : State :=
  let s := { s with keys_0_last := s.keys_0 }
  let s := { s with keys_6_last := s.keys_6 }
  let s := if b.KEYS_NUMBER ≥ 12 then { s with keys_12_last := s.keys_12 } else s
  let s := if b.KEYS_NUMBER ≥ 18 then { s with keys_18_last := s.keys_18 } else s
  let s := if b.KEYS_NUMBER ≥ 24 then { s with keys_24_last := s.keys_24 } else s
  let s := if b.KEYS_NUMBER ≥ 30 then { s with keys_30_last := s.keys_30 } else s
  let s := if b.KEYS_NUMBER ≥ 36 then { s with keys_36_last := s.keys_36 } else s
  let s := if b.KEYS_NUMBER ≥ 42 then { s with keys_42_last := s.keys_42 } else s
  s

/-- The state in which `process_keys_MIDI` is called (line 591) in the
iteration that starts in `s`. -/
def before_keys (b : Build) (e : Extern) (s : State) : State :=
  keep_settings (loop_read e (loop_pots b e s))

/-- One iteration of the `while(1)` loop of `midi_behaviour`, lines 557 to 612. -/
def midi_loop (b : Build) (e : Extern) (s : State) : Option State :=
  (process_keys_MIDI b (before_keys b e s)).map (keep_keys b)

/-! ## Vocabulary of the specification -/

/-- Key flag `k` (0 to 5) of a key-group byte `[k5,k4,k3,k2,k1,k0,xx,xx]`. -/
def key_flag (byte k : Nat) : Bool := byte.testBit (k + 2)

/-- Number of bits set in a byte. -/
def popcount (x : Nat) : Nat := ((List.range 8).filter x.testBit).length

/-- The current byte of the group that holds key index `j`. -/
def key_byte (s : State) (j : Nat) : Nat :=
  match j / 6 with
  | 0 => s.keys_0
  | 1 => s.keys_6
  | 2 => s.keys_12
  | 3 => s.keys_18
  | 4 => s.keys_24
  | 5 => s.keys_30
  | 6 => s.keys_36
  | 7 => s.keys_42
  | _ => 0

/-- The previous byte of the group that holds key index `j`. -/
def key_byte_last (s : State) (j : Nat) : Nat :=
  match j / 6 with
  | 0 => s.keys_0_last
  | 1 => s.keys_6_last
  | 2 => s.keys_12_last
  | 3 => s.keys_18_last
  | 4 => s.keys_24_last
  | 5 => s.keys_30_last
  | 6 => s.keys_36_last
  | 7 => s.keys_42_last
  | _ => 0

/-- Key index `j` belongs to a group that the build compiles into
`process_keys_MIDI`: groups 0 and 6 always, group `g ≥ 12` when
`KEYS_NUMBER >= g`. -/
def handled (b : Build) (j : Nat) : Bool :=
  decide (j < 12) || (decide (j < 48) && decide (6 * (j / 6) ≤ b.KEYS_NUMBER))

/-- Key `j` goes down: its flag is 1 in the current byte and 0 in the previous one. -/
def is_press (s : State) (j : Nat) : Bool :=
  key_flag (key_byte s j) (j % 6) && !key_flag (key_byte_last s j) (j % 6)

/-- Key `j` goes up: its flag is 0 in the current byte and 1 in the previous one. -/
def is_release (s : State) (j : Nat) : Bool :=
  !key_flag (key_byte s j) (j % 6) && key_flag (key_byte_last s j) (j % 6)

/-- Indices of the handled keys that go down, in ascending order. -/
def pressed_keys (b : Build) (s : State) : List Nat :=
  (List.range 48).filter (fun j => handled b j && is_press s j)

/-- Indices of the handled keys that go up, in ascending order. -/
def released_keys (b : Build) (s : State) : List Nat :=
  (List.range 48).filter (fun j => handled b j && is_release s j)

/-- The byte stored for key index `j`: the value of
`MIDI_C0 + current_pitch_0 + j` assigned to a `uint8_t`. -/
def note_of (b : Build) (s : State) (j : Nat) : Nat :=
  (b.MIDI_C0 + current_pitch_0 s + j) % 256

/-- The cells `0 … note_ON_queue_len - 1` of `note_ON_queue`. -/
def queued_ON (l : Locals) : List Nat :=
  l.note_ON_queue.take l.note_ON_queue_len

/-- The cells `0 … note_OFF_queue_len - 1` of `note_OFF_queue`. -/
def queued_OFF (l : Locals) : List Nat :=
  l.note_OFF_queue.take l.note_OFF_queue_len

/-- The bytes that the call of `process_keys_MIDI` in state `s` appends to the
serial stream, when the call has a result. -/
def sent (b : Build) (s : State) : Option (List Nat) :=
  (process_keys_MIDI b s).map (fun r => r.usart.drop s.usart.length)

/-- No more keys go down, and no more keys go up, than a queue has cells. -/
def in_bounds (b : Build) (s : State) : Bool :=
  decide ((pressed_keys b s).length ≤ b.KEYS_NUMBER)
    && decide ((released_keys b s).length ≤ b.KEYS_NUMBER)

/-- The queue of `size` cells `cells`, with counter `len` and stray writes
`stray`, has received the notes `notes`, in this order: the counter counts
them, the cells hold those that fit, the others are stray. -/
def queue_holds (size : Nat) (cells : List Nat) (len : Nat) (stray : List (Nat × Nat))
    (notes : List Nat) : Prop :=
  cells.length = size
    ∧ len = notes.length
    ∧ cells.take len = notes.take size
    ∧ stray.map Prod.snd = notes.drop size

/-- The two queues of `l` have received the notes `ons` and `offs`. -/
def locals_hold (size : Nat) (l : Locals) (ons offs : List Nat) : Prop :=
  queue_holds size l.note_ON_queue l.note_ON_queue_len l.stray_ON ons
    ∧ queue_holds size l.note_OFF_queue l.note_OFF_queue_len l.stray_OFF offs

/-- The flags of a group that rise, as offsets 0 to 5. -/
def rising (c p : Nat) : List Nat :=
  (List.range 6).filter (fun k => key_flag c k && !key_flag p k)

/-- The flags of a group that fall, as offsets 0 to 5. -/
def falling (c p : Nat) : List Nat :=
  (List.range 6).filter (fun k => !key_flag c k && key_flag p k)

/-- A Note-On frame: the status byte, a `(note, 0x40)` pair for each note of
`ons`, then a `(note, 0x00)` pair for each note of `offs`; nothing when both
are empty. -/
def frame (status : Nat) (ons offs : List Nat) : List Nat :=
  if ons.length + offs.length > 0 then
    [status] ++ ons.flatMap (fun n => [n, 0x40]) ++ offs.flatMap (fun n => [n, 0x00])
  else []

/-! ## midi_behaviour: the potentiometers -/

/-- Lines 557 to 560: `read_pots();` under
`#if (defined ENABLE_VIBRATO) || (defined ENABLE_TREMOLO)`. -/
def after_read_pots (b : Build) (e : Extern) (s : State) : State :=
  if b.ENABLE_VIBRATO || b.ENABLE_TREMOLO then e.read_pots s else s

/-! ## Successive iterations of the loop -/

/-- What `process_keys_MIDI` sends in each of the successive iterations of the
`midi_behaviour` loop, the iteration number `i` running with the externals
`es[i]`, from the state `s` at the start of the first one; `none` when one of
the calls has no result. -/
def keys_trace (b : Build) : List Extern → State → Option (List (List Nat))
  | [], _ => some []
  | e :: es, s =>
    match sent b (before_keys b e s), midi_loop b e s with
    | some bytes, some r => (keys_trace b es r).map (fun rest => bytes :: rest)
    | _, _ => none

/-- The states in which `process_keys_MIDI` is called in each of the
successive iterations of the `midi_behaviour` loop; `none` when one of the
calls has no result. -/
def call_states (b : Build) : List Extern → State → Option (List State)
  | [], _ => some []
  | e :: es, s =>
    match midi_loop b e s with
    | some r => (call_states b es r).map (fun rest => before_keys b e s :: rest)
    | none => none

/-- Key `j` is held through the iterations `es`, run from the state `s` that
ends the iteration before: each of them has a result and samples the flag of
key `j` set, and `read_pots`, `read_buttons` and `process_settings` leave the
previous byte of its group as the loop stored it.  The other keys are free
to move. -/
def key_held (b : Build) (j : Nat) : List Extern → State → Bool
  | [], _ => true
  | e :: es, s =>
    key_flag (key_byte (before_keys b e s) j) (j % 6)
      && (key_byte_last (before_keys b e s) j == key_byte_last s j)
      && (match midi_loop b e s with
          | some r => key_held b j es r
          | none => false)

/-! ## main.c -/

/-- The function that `main` calls once its wait loop has ended; `returns`
stands for the `return EXIT_FAILURE;` reached when neither call is made. -/
inductive Started where
  | analog_behaviour
  | midi_behaviour
  | returns
  deriving DecidableEq

/-- The condition of the wait loop of `main`, line 22. -/
def main_waiting (s : State) : Bool :=
  ((s.keys_0 &&& KEY_0_MSK) == 0) && ((s.keys_0 &&& KEY_1_MSK) == 0)

/-- Lines 22 to 24 of main.c: `while(…){ read_buttons(); }`.  The loop has no
bound of its own; `fuel` bounds the number of times the condition is
evaluated, and `none` means that it still held the last time. -/
def main_wait (e : Extern) : Nat → State → Option State
  | 0, _ => none
  | fuel + 1, s => if main_waiting s then main_wait e fuel (e.read_buttons s) else some s

/-- Lines 27 to 34 of main.c: the choice of the run mode. -/
def main_switch (s : State) : Started :=
  if s.keys_0 &&& KEY_0_MSK != 0 then Started.analog_behaviour
  else if s.keys_0 &&& KEY_1_MSK != 0 then Started.midi_behaviour
  else Started.returns

/-- Lines 21 to 34 of main.c, from the state `s` that the initialisation
leaves. -/
def main (e : Extern) (fuel : Nat) (s : State) : Option Started :=
  (main_wait e fuel s).map main_switch

/-! ## analog_behaviour.h -/

/-- The timer auto-reload value (`#define TIMER_ARR 384u`). -/
def TIMER_ARR : Nat := 384

/-- The analog amplitude of one note: `(TIMER_ARR>>3)`. -/
def PWM_NOTE_AMP : Nat := TIMER_ARR >>> 3

/-- Minimum duty value of the analog output: `(PWM_NOTE_AMP >> 1)`. -/
def PWM_MIN : Nat := PWM_NOTE_AMP >>> 1

/-- The frequency of the ATMega328p. -/
def ATMEGA_FREQUENCY : Nat := 16000000

/-- Sample frequency in Hz: `(ATMEGA_FREQUENCY / TIMER_ARR)`. -/
def SAMPLE_FREQUENCY : Nat := ATMEGA_FREQUENCY / TIMER_ARR

/-- Sample time in microseconds: `(1000000 / SAMPLE_FREQUENCY)`. -/
def SAMPLE_TIME : Nat := 1000000 / SAMPLE_FREQUENCY

/-! ## process_settings (keyboard.c, not part of the sources at hand) -/

/-- Modelled from the spec: the settings-change events that `process_settings`
of keyboard.c, absent from the sources, detects on the settings buttons: one
per button edge, octave up or down, semitone up or down. -/
inductive SettingsEvent where
  | octave_up
  | octave_down
  | semitone_up
  | semitone_down
  deriving DecidableEq

/-- Modelled from the spec: the `pitch_0` delta of a settings-change event,
absent from the sources: octave buttons ±12, semitone buttons ±1. -/
def SettingsEvent.delta : SettingsEvent → Int
  | SettingsEvent.octave_up => OCTAVE
  | SettingsEvent.octave_down => -OCTAVE
  | SettingsEvent.semitone_up => 1
  | SettingsEvent.semitone_down => -1

/-- Modelled from the spec: the clamped add of `process_settings` of
keyboard.c, absent from the sources: a shift of `pitch_0` that would leave
`[0, MAX_PITCH_0]` is clamped to the bound, not wrapped. -/
def clamped_add (keysNumber : Nat) (pitch delta : Int) : Int :=
  if pitch + delta < 0 then 0
  else if pitch + delta > MAX_PITCH_0 keysNumber then MAX_PITCH_0 keysNumber
  else pitch + delta

/-- Modelled from the spec: the effect on `pitch_0` of `process_settings` of
keyboard.c, absent from the sources: the events detected in one cycle are all
applied, in order, each through the clamped add. -/
def apply_settings (keysNumber : Nat) (pitch : Int) (events : List SettingsEvent) : Int :=
  events.foldl (fun p ev => clamped_add keysNumber p ev.delta) pitch

/-! ## The voice table (analog_behaviour.c, not part of the sources at hand) -/

/-- Modelled from the spec: the maximum number of simultaneous voices of
`setAnalogOut` of analog_behaviour.c, absent from the sources: the PWM range
divided by the amplitude of one note. -/
def MAX_VOICES : Nat := TIMER_ARR / PWM_NOTE_AMP

/-- Modelled from the spec: a Press event on the voice table of
`setAnalogOut` of analog_behaviour.c, absent from the sources.  The table
lists the notes that are Sounding, oldest first; a Press makes the note
Sounding if capacity is available and is dropped otherwise, without an
error. -/
def voice_press (voices : List Nat) (note : Nat) : List Nat :=
  if note ∈ voices then voices
  else if voices.length < MAX_VOICES then voices ++ [note]
  else voices

/-! ## States and scans used as concrete inputs -/

/-- The all-zero state with the given `pitch_0`. -/
def idle (pitch : Int) : State :=
  ⟨0, 0, 0, 0, 0, 0, 0, 0, 0, 0, 0, 0, 0, 0, 0, 0, 0, 0, pitch, 0, 0, 0, 0, []⟩

/-- Key 0 alone goes down, `pitch_0` has its default value 36. -/
def key_0_down : State := { idle 36 with keys_0 := 0x04 }

/-- Keys 13 and 30 go down and key 2 goes up, `pitch_0` is 36. -/
def chord : State :=
  { idle 36 with keys_0_last := 0x10, keys_12 := 0x08, keys_30 := 0x04 }

/-- Key 36, the first key of the group `keys_36`, goes down alone. -/
def key_36_down : State := { idle 36 with keys_36 := 0x04 }

/-- Every key of the seven groups compiled in by keyboard.h goes down at
once: the current bytes have their six flags set, the previous bytes are 0. -/
def all_keys_down : State :=
  { idle 36 with
    keys_0 := 0xFC, keys_6 := 0xFC, keys_12 := 0xFC, keys_18 := 0xFC, keys_24 := 0xFC,
    keys_30 := 0xFC, keys_36 := 0xFC }

/-- Every key of the seven groups compiled in by keyboard.h goes up at once. -/
def all_keys_up : State :=
  { idle 36 with
    keys_0_last := 0xFC, keys_6_last := 0xFC, keys_12_last := 0xFC, keys_18_last := 0xFC,
    keys_24_last := 0xFC, keys_30_last := 0xFC, keys_36_last := 0xFC }

/-- A scan that finds key 0 down and every other key up; the potentiometers
and the settings are left alone. -/
def press_key_0 : Extern :=
  ⟨id, fun s => { s with keys_0 := 0x04 }, id⟩

/-- A scan that finds every key up; the potentiometers and the settings are
left alone. -/
def release_key_0 : Extern :=
  ⟨id, fun s => { s with keys_0 := 0x00 }, id⟩

/-- A scan that finds every input as it was. -/
def hold : Extern :=
  ⟨id, id, id⟩

/-- The build of keyboard.h with both potentiometers enabled and MIDI
channel 1. -/
def channel_1 : Build :=
  ⟨KEYS_NUMBER, true, true, 60, 1⟩

/-- Key 0 alone goes down while both potentiometer flags are raised. -/
def pots_changed : State :=
  { key_0_down with
    ADC_vibrato := 0x10, ADC_vibrato_flag := 1, ADC_tremolo := 0x20, ADC_tremolo_flag := 1 }

/-- Key 36 goes down alone while `pitch_0` has its largest value,
`MAX_PITCH_0 = 72`. -/
def top_pitch_key_36_down : State := { idle 72 with keys_36 := 0x04 }

/-- A scan that finds key 1 down and every other key up. -/
def press_key_1 : Extern :=
  ⟨id, fun s => { s with keys_0 := 0x08 }, id⟩

/-- Key 0 alone goes down, as in `key_0_down`, with other values in the two
low-order bits of the bytes of three groups. -/
def key_0_down_low_bits : State :=
  { idle 36 with keys_0 := 0x07, keys_0_last := 0x02, keys_6 := 0x01, keys_12_last := 0x03 }

/-- Key 32 (flag 2 of the group `keys_30`) goes down alone, `pitch_0` has its
default value 36. -/
def key_32_down : State := { idle 36 with keys_30 := 0x10 }

/-- Key 0 alone goes up while `pitch_0` is 48. -/
def key_0_up_pitch_48 : State := { idle 48 with keys_0_last := 0x04 }

/-- A scan that finds every key as it was, while `process_settings` handles
an octave-up edge: `pitch_0` is shifted by the clamped add of one octave. -/
def shift_octave_up : Extern :=
  ⟨id, id, fun s => { s with pitch_0 := clamped_add KEYS_NUMBER s.pitch_0 OCTAVE }⟩

/-- The 36 keys of the first six groups and keys 36, 37 and 38 go down, keys
39, 40 and 41 go up: 39 presses and 3 releases in one cycle. -/
def presses_39_releases_3 : State :=
  { idle 36 with
    keys_0 := 0xFC, keys_6 := 0xFC, keys_12 := 0xFC, keys_18 := 0xFC, keys_24 := 0xFC,
    keys_30 := 0xFC, keys_36 := 0x1C, keys_36_last := 0xE0 }

/-- The 36 keys of the first six groups and keys 36 and 37 go down and key 38
goes up: 38 presses and one release in one cycle. -/
def presses_38_release_1 : State :=
  { idle 36 with
    keys_0 := 0xFC, keys_6 := 0xFC, keys_12 := 0xFC, keys_18 := 0xFC, keys_24 := 0xFC,
    keys_30 := 0xFC, keys_36 := 0x0C, keys_36_last := 0x10 }

/-- The state at the end of the iteration in which key 0 went down from
`idle 36`. -/
def key_0_held : State :=
  { idle 36 with keys_0 := 0x04, keys_0_last := 0x04, usart := [0x90, 96, 0x40] }

/-- A scan that finds key 0 still down and key 7 down as well. -/
def press_key_7 : Extern :=
  ⟨id, fun s => { s with keys_0 := 0x04, keys_6 := 0x08 }, id⟩

/-- A scan that finds key 0 still down and key 7 up again. -/
def release_key_7 : Extern :=
  ⟨id, fun s => { s with keys_0 := 0x04, keys_6 := 0x00 }, id⟩

/-! ## Bits and masks -/

theorem and_two_pow_eq (c j : Nat) : c &&& 2 ^ j = if c.testBit j then 2 ^ j else 0 := by
  apply Nat.eq_of_testBit_eq
  intro i
  rw [Nat.testBit_and, Nat.testBit_two_pow]
  by_cases h : c.testBit j = true
  · rw [if_pos h, Nat.testBit_two_pow]
    by_cases hji : j = i
    · subst hji; simp [h]
    · simp [hji]
  · rw [if_neg h, Nat.zero_testBit]
    by_cases hji : j = i
    · subst hji; simp [h]
    · simp [hji]

theorem and_two_pow_ne_zero (c j : Nat) : (c &&& 2 ^ j != 0) = c.testBit j := by
  rw [and_two_pow_eq]
  by_cases h : c.testBit j = true
  · simp [h]
  · simp [h]

theorem mask_0 (c : Nat) : (c &&& KEY_0_MSK != 0) = key_flag c 0 := and_two_pow_ne_zero c 2
theorem mask_1 (c : Nat) : (c &&& KEY_1_MSK != 0) = key_flag c 1 := and_two_pow_ne_zero c 3
theorem mask_2 (c : Nat) : (c &&& KEY_2_MSK != 0) = key_flag c 2 := and_two_pow_ne_zero c 4
theorem mask_3 (c : Nat) : (c &&& KEY_3_MSK != 0) = key_flag c 3 := and_two_pow_ne_zero c 5
theorem mask_4 (c : Nat) : (c &&& KEY_4_MSK != 0) = key_flag c 4 := and_two_pow_ne_zero c 6
theorem mask_5 (c : Nat) : (c &&& KEY_5_MSK != 0) = key_flag c 5 := and_two_pow_ne_zero c 7

/-! ## The queues as lists -/

theorem take_set_succ (a : List Nat) (v : Nat) :
    ∀ i, i < a.length → (a.set i v).take (i + 1) = a.take i ++ [v] := by
  induction a with
  | nil => intro i h; exact absurd h (Nat.not_lt_zero i)
  | cons x xs ih =>
    intro i h
    cases i with
    | zero => simp
    | succ i =>
      rw [List.set_cons_succ, List.take_succ_cons, List.take_succ_cons,
        ih i (Nat.lt_of_succ_lt_succ h)]
      rfl

theorem map_filter_flatMap {α β : Type} (q : α → Bool) (f : α → β) (xs : List α) :
    (xs.filter q).map f = xs.flatMap (fun k => if q k then [f k] else []) := by
  induction xs with
  | nil => rfl
  | cons x xs ih =>
    rw [List.flatMap_cons, ← ih, List.filter_cons]
    cases q x <;> simp

theorem range_six : List.range 6 = [0, 1, 2, 3, 4, 5] := by decide

/-- One more note written to a queue. -/
theorem queue_holds_push (size : Nat) (cells : List Nat) (len : Nat) (stray : List (Nat × Nat))
    (notes : List Nat) (v : Nat) (h : queue_holds size cells len stray notes)
    (hl : notes.length < 255) :
    queue_holds size (array_store cells len v) ((len + 1) % 256)
      (stray_store cells stray len v) (notes ++ [v % 256]) := by
  obtain ⟨h0, h1, h2, h3⟩ := h
  have hm : (len + 1) % 256 = len + 1 := Nat.mod_eq_of_lt (by omega)
  rw [hm]
  by_cases hs : len < cells.length
  · have e : notes.take size = notes := List.take_of_length_le (by omega)
    rw [e] at h2
    rw [List.drop_eq_nil_of_le (by omega)] at h3
    refine ⟨?_, by rw [List.length_append, List.length_singleton, h1], ?_, ?_⟩
    · rw [array_store, if_pos hs, List.length_set, h0]
    · rw [array_store, if_pos hs, take_set_succ cells _ len hs, h2,
        List.take_of_length_le (by rw [List.length_append, List.length_singleton]; omega)]
    · rw [stray_store, if_pos hs, h3,
        List.drop_eq_nil_of_le (by rw [List.length_append, List.length_singleton]; omega)]
  · have e : cells.take len = cells := List.take_of_length_le (by omega)
    rw [e] at h2
    refine ⟨?_, by rw [List.length_append, List.length_singleton, h1], ?_, ?_⟩
    · rw [array_store, if_neg hs, h0]
    · rw [array_store, if_neg hs, List.take_of_length_le (by omega), h2,
        List.take_append_of_le_length (by omega)]
    · rw [stray_store, if_neg hs, List.map_append, h3,
        List.drop_append_of_le_length (by omega)]
      rfl

theorem length_append_ite (xs : List Nat) (c : Bool) (x : Nat) :
    (xs ++ if c = true then [x] else []).length ≤ xs.length + 1 := by
  cases c <;> simp

/-- What one key block does to the two queues. -/
theorem key_block_spec (size c p k msk note : Nat) (l : Locals) (ons offs : List Nat)
    (hm : ∀ x, (x &&& msk != 0) = key_flag x k)
    (h : locals_hold size l ons offs) (hon : ons.length < 255) (hoff : offs.length < 255) :
    locals_hold size (key_block c p msk note l)
      (ons ++ (if (key_flag c k && !key_flag p k) = true then [note % 256] else []))
      (offs ++ (if (!key_flag c k && key_flag p k) = true then [note % 256] else [])) := by
  obtain ⟨h1, h2⟩ := h
  have a1 := queue_holds_push size _ _ _ _ note h1 hon
  have a2 := queue_holds_push size _ _ _ _ note h2 hoff
  unfold key_block
  rw [hm c, hm p]
  cases hc : key_flag c k <;> cases hp : key_flag p k
  · simpa [locals_hold] using And.intro h1 h2
  · simpa [locals_hold] using And.intro h1 a2
  · simpa [locals_hold] using And.intro a1 h2
  · simpa [locals_hold] using And.intro h1 h2

theorem key_block_step (size c p k msk note : Nat) (l : Locals) (ons offs : List Nat)
    (hm : ∀ x, (x &&& msk != 0) = key_flag x k)
    (h : locals_hold size l ons offs) (hon : ons.length < 255) (hoff : offs.length < 255) :
    ∃ ons1 offs1, locals_hold size (key_block c p msk note l) ons1 offs1
      ∧ ons1 = ons ++ (if (key_flag c k && !key_flag p k) = true then [note % 256] else [])
      ∧ offs1 = offs ++ (if (!key_flag c k && key_flag p k) = true then [note % 256] else [])
      ∧ ons1.length ≤ ons.length + 1 ∧ offs1.length ≤ offs.length + 1 :=
  ⟨_, _, key_block_spec size c p k msk note l ons offs hm h hon hoff, rfl, rfl,
    length_append_ite _ _ _, length_append_ite _ _ _⟩

theorem rising_self (c : Nat) : rising c c = [] := by
  simp [rising]

theorem falling_self (c : Nat) : falling c c = [] := by
  simp [falling]

theorem rising_length (c p : Nat) : (rising c p).length ≤ 6 := by
  have h := List.length_filter_le (fun k => key_flag c k && !key_flag p k) (List.range 6)
  simpa [rising] using h

theorem falling_length (c p : Nat) : (falling c p).length ≤ 6 := by
  have h := List.length_filter_le (fun k => !key_flag c k && key_flag p k) (List.range 6)
  simpa [falling] using h

/-- What one group block does to the two queues. -/
theorem group_block_spec (size c p c0 cp g : Nat) (l : Locals) (ons offs : List Nat)
    (h : locals_hold size l ons offs)
    (hon : ons.length + 6 < 256) (hoff : offs.length + 6 < 256) :
    locals_hold size (group_block c p c0 cp g l)
      (ons ++ (rising c p).map (fun k => (c0 + cp + (g + k)) % 256))
      (offs ++ (falling c p).map (fun k => (c0 + cp + (g + k)) % 256)) := by
  unfold group_block
  by_cases hcp : c = p
  · subst hcp
    simpa [rising_self, falling_self] using h
  · have hne : (c != p) = true := by simpa using hcp
    rw [if_pos hne]
    obtain ⟨A1, B1, s1, ea1, eb1, la1, lb1⟩ := key_block_step size c p 0 KEY_0_MSK
      (c0 + cp + (g + 0)) l ons offs mask_0 h (by omega) (by omega)
    obtain ⟨A2, B2, s2, ea2, eb2, la2, lb2⟩ := key_block_step size c p 1 KEY_1_MSK
      (c0 + cp + (g + 1)) _ A1 B1 mask_1 s1 (by omega) (by omega)
    obtain ⟨A3, B3, s3, ea3, eb3, la3, lb3⟩ := key_block_step size c p 2 KEY_2_MSK
      (c0 + cp + (g + 2)) _ A2 B2 mask_2 s2 (by omega) (by omega)
    obtain ⟨A4, B4, s4, ea4, eb4, la4, lb4⟩ := key_block_step size c p 3 KEY_3_MSK
      (c0 + cp + (g + 3)) _ A3 B3 mask_3 s3 (by omega) (by omega)
    obtain ⟨A5, B5, s5, ea5, eb5, la5, lb5⟩ := key_block_step size c p 4 KEY_4_MSK
      (c0 + cp + (g + 4)) _ A4 B4 mask_4 s4 (by omega) (by omega)
    obtain ⟨A6, B6, s6, ea6, eb6, _, _⟩ := key_block_step size c p 5 KEY_5_MSK
      (c0 + cp + (g + 5)) _ A5 B5 mask_5 s5 (by omega) (by omega)
    have e1 : ons ++ (rising c p).map (fun k => (c0 + cp + (g + k)) % 256) = A6 := by
      rw [ea6, ea5, ea4, ea3, ea2, ea1, rising, map_filter_flatMap, range_six]
      simp only [List.flatMap_cons, List.flatMap_nil, List.append_nil, List.append_assoc]
    have e2 : offs ++ (falling c p).map (fun k => (c0 + cp + (g + k)) % 256) = B6 := by
      rw [eb6, eb5, eb4, eb3, eb2, eb1, falling, map_filter_flatMap, range_six]
      simp only [List.flatMap_cons, List.flatMap_nil, List.append_nil, List.append_assoc]
    rw [e1, e2]
    exact s6

/-- A group block under `#if`. -/
theorem cond_group_spec (d : Prop) [Decidable d] (size c p c0 cp g : Nat) (l : Locals)
    (ons offs : List Nat) (h : locals_hold size l ons offs)
    (hon : ons.length + 6 < 256) (hoff : offs.length + 6 < 256) :
    locals_hold size (if d then group_block c p c0 cp g l else l)
      (ons ++ (if d then (rising c p).map (fun k => (c0 + cp + (g + k)) % 256) else []))
      (offs ++ (if d then (falling c p).map (fun k => (c0 + cp + (g + k)) % 256) else [])) := by
  by_cases hd : d
  · simp only [if_pos hd]
    exact group_block_spec size c p c0 cp g l ons offs h hon hoff
  · simpa [if_neg hd] using h

theorem range_48 : List.range 48 =
    [0, 1, 2, 3, 4, 5] ++ [6, 7, 8, 9, 10, 11] ++ [12, 13, 14, 15, 16, 17]
      ++ [18, 19, 20, 21, 22, 23] ++ [24, 25, 26, 27, 28, 29] ++ [30, 31, 32, 33, 34, 35]
      ++ [36, 37, 38, 39, 40, 41] ++ [42, 43, 44, 45, 46, 47] := by
  decide

theorem chunk_0 (b : Build) (s : State) (r : Nat → Nat → Nat → Bool) :
    ([0, 1, 2, 3, 4, 5].filter
        (fun j => handled b j && r (key_byte s j) (key_byte_last s j) (j % 6))).map (note_of b s)
      = ((List.range 6).filter (fun k => r s.keys_0 s.keys_0_last k)).map
          (fun k => (b.MIDI_C0 + current_pitch_0 s + (0 + k)) % 256) := by
  rw [map_filter_flatMap, map_filter_flatMap, range_six]
  simp [handled, key_byte, key_byte_last, note_of]

theorem chunk_6 (b : Build) (s : State) (r : Nat → Nat → Nat → Bool) :
    ([6, 7, 8, 9, 10, 11].filter
        (fun j => handled b j && r (key_byte s j) (key_byte_last s j) (j % 6))).map (note_of b s)
      = ((List.range 6).filter (fun k => r s.keys_6 s.keys_6_last k)).map
          (fun k => (b.MIDI_C0 + current_pitch_0 s + (6 + k)) % 256) := by
  rw [map_filter_flatMap, map_filter_flatMap, range_six]
  simp [handled, key_byte, key_byte_last, note_of]

theorem chunk_12 (b : Build) (s : State) (r : Nat → Nat → Nat → Bool) :
    ([12, 13, 14, 15, 16, 17].filter
        (fun j => handled b j && r (key_byte s j) (key_byte_last s j) (j % 6))).map (note_of b s)
      = if b.KEYS_NUMBER ≥ 12 then
          ((List.range 6).filter (fun k => r s.keys_12 s.keys_12_last k)).map
          (fun k => (b.MIDI_C0 + current_pitch_0 s + (12 + k)) % 256)
        else [] := by
  rw [map_filter_flatMap, map_filter_flatMap, range_six]
  by_cases h : 12 ≤ b.KEYS_NUMBER <;> simp [handled, key_byte, key_byte_last, note_of, h]

theorem chunk_18 (b : Build) (s : State) (r : Nat → Nat → Nat → Bool) :
    ([18, 19, 20, 21, 22, 23].filter
        (fun j => handled b j && r (key_byte s j) (key_byte_last s j) (j % 6))).map (note_of b s)
      = if b.KEYS_NUMBER ≥ 18 then
          ((List.range 6).filter (fun k => r s.keys_18 s.keys_18_last k)).map
          (fun k => (b.MIDI_C0 + current_pitch_0 s + (18 + k)) % 256)
        else [] := by
  rw [map_filter_flatMap, map_filter_flatMap, range_six]
  by_cases h : 18 ≤ b.KEYS_NUMBER <;> simp [handled, key_byte, key_byte_last, note_of, h]

theorem chunk_24 (b : Build) (s : State) (r : Nat → Nat → Nat → Bool) :
    ([24, 25, 26, 27, 28, 29].filter
        (fun j => handled b j && r (key_byte s j) (key_byte_last s j) (j % 6))).map (note_of b s)
      = if b.KEYS_NUMBER ≥ 24 then
          ((List.range 6).filter (fun k => r s.keys_24 s.keys_24_last k)).map
          (fun k => (b.MIDI_C0 + current_pitch_0 s + (24 + k)) % 256)
        else [] := by
  rw [map_filter_flatMap, map_filter_flatMap, range_six]
  by_cases h : 24 ≤ b.KEYS_NUMBER <;> simp [handled, key_byte, key_byte_last, note_of, h]

theorem chunk_30 (b : Build) (s : State) (r : Nat → Nat → Nat → Bool) :
    ([30, 31, 32, 33, 34, 35].filter
        (fun j => handled b j && r (key_byte s j) (key_byte_last s j) (j % 6))).map (note_of b s)
      = if b.KEYS_NUMBER ≥ 30 then
          ((List.range 6).filter (fun k => r s.keys_30 s.keys_30_last k)).map
          (fun k => (b.MIDI_C0 + current_pitch_0 s + (30 + k)) % 256)
        else [] := by
  rw [map_filter_flatMap, map_filter_flatMap, range_six]
  by_cases h : 30 ≤ b.KEYS_NUMBER <;> simp [handled, key_byte, key_byte_last, note_of, h]

theorem chunk_36 (b : Build) (s : State) (r : Nat → Nat → Nat → Bool) :
    ([36, 37, 38, 39, 40, 41].filter
        (fun j => handled b j && r (key_byte s j) (key_byte_last s j) (j % 6))).map (note_of b s)
      = if b.KEYS_NUMBER ≥ 36 then
          ((List.range 6).filter (fun k => r s.keys_36 s.keys_36_last k)).map
          (fun k => (b.MIDI_C0 + current_pitch_0 s + (36 + k)) % 256)
        else [] := by
  rw [map_filter_flatMap, map_filter_flatMap, range_six]
  by_cases h : 36 ≤ b.KEYS_NUMBER <;> simp [handled, key_byte, key_byte_last, note_of, h]

theorem chunk_42 (b : Build) (s : State) (r : Nat → Nat → Nat → Bool) :
    ([42, 43, 44, 45, 46, 47].filter
        (fun j => handled b j && r (key_byte s j) (key_byte_last s j) (j % 6))).map (note_of b s)
      = if b.KEYS_NUMBER ≥ 42 then
          ((List.range 6).filter (fun k => r s.keys_42 s.keys_42_last k)).map
          (fun k => (b.MIDI_C0 + current_pitch_0 s + (42 + k)) % 256)
        else [] := by
  rw [map_filter_flatMap, map_filter_flatMap, range_six]
  by_cases h : 42 ≤ b.KEYS_NUMBER <;> simp [handled, key_byte, key_byte_last, note_of, h]

/-- The keys selected by `r` among the handled ones, as the eight group blocks
produce them. -/
theorem chunks_48 (b : Build) (s : State) (r : Nat → Nat → Nat → Bool) :
    ((List.range 48).filter
        (fun j => handled b j && r (key_byte s j) (key_byte_last s j) (j % 6))).map (note_of b s)
      = [] ++ ((List.range 6).filter (fun k => r s.keys_0 s.keys_0_last k)).map
            (fun k => (b.MIDI_C0 + current_pitch_0 s + (0 + k)) % 256)
          ++ ((List.range 6).filter (fun k => r s.keys_6 s.keys_6_last k)).map
            (fun k => (b.MIDI_C0 + current_pitch_0 s + (6 + k)) % 256)
          ++ (if b.KEYS_NUMBER ≥ 12 then
              ((List.range 6).filter (fun k => r s.keys_12 s.keys_12_last k)).map
                (fun k => (b.MIDI_C0 + current_pitch_0 s + (12 + k)) % 256) else [])
          ++ (if b.KEYS_NUMBER ≥ 18 then
              ((List.range 6).filter (fun k => r s.keys_18 s.keys_18_last k)).map
                (fun k => (b.MIDI_C0 + current_pitch_0 s + (18 + k)) % 256) else [])
          ++ (if b.KEYS_NUMBER ≥ 24 then
              ((List.range 6).filter (fun k => r s.keys_24 s.keys_24_last k)).map
                (fun k => (b.MIDI_C0 + current_pitch_0 s + (24 + k)) % 256) else [])
          ++ (if b.KEYS_NUMBER ≥ 30 then
              ((List.range 6).filter (fun k => r s.keys_30 s.keys_30_last k)).map
                (fun k => (b.MIDI_C0 + current_pitch_0 s + (30 + k)) % 256) else [])
          ++ (if b.KEYS_NUMBER ≥ 36 then
              ((List.range 6).filter (fun k => r s.keys_36 s.keys_36_last k)).map
                (fun k => (b.MIDI_C0 + current_pitch_0 s + (36 + k)) % 256) else [])
          ++ (if b.KEYS_NUMBER ≥ 42 then
              ((List.range 6).filter (fun k => r s.keys_42 s.keys_42_last k)).map
                (fun k => (b.MIDI_C0 + current_pitch_0 s + (42 + k)) % 256) else []) := by
  rw [range_48]
  simp only [List.filter_append, List.map_append]
  rw [chunk_0, chunk_6, chunk_12, chunk_18, chunk_24, chunk_30, chunk_36, chunk_42]
  rfl


theorem group_block_step (size c p c0 cp g : Nat) (l : Locals) (ons offs : List Nat)
    (h : locals_hold size l ons offs)
    (hon : ons.length + 6 < 256) (hoff : offs.length + 6 < 256) :
    ∃ ons1 offs1, locals_hold size (group_block c p c0 cp g l) ons1 offs1
      ∧ ons1 = ons ++ (rising c p).map (fun k => (c0 + cp + (g + k)) % 256)
      ∧ offs1 = offs ++ (falling c p).map (fun k => (c0 + cp + (g + k)) % 256)
      ∧ ons1.length ≤ ons.length + 6 ∧ offs1.length ≤ offs.length + 6 := by
  refine ⟨_, _, group_block_spec size c p c0 cp g l ons offs h hon hoff, rfl, rfl, ?_, ?_⟩
  · have := rising_length c p
    rw [List.length_append, List.length_map]; omega
  · have := falling_length c p
    rw [List.length_append, List.length_map]; omega

theorem cond_group_step (d : Prop) [Decidable d] (size c p c0 cp g : Nat) (l : Locals)
    (ons offs : List Nat) (h : locals_hold size l ons offs)
    (hon : ons.length + 6 < 256) (hoff : offs.length + 6 < 256) :
    ∃ ons1 offs1, locals_hold size (if d then group_block c p c0 cp g l else l) ons1 offs1
      ∧ ons1 = ons ++ (if d then (rising c p).map (fun k => (c0 + cp + (g + k)) % 256) else [])
      ∧ offs1
        = offs ++ (if d then (falling c p).map (fun k => (c0 + cp + (g + k)) % 256) else [])
      ∧ ons1.length ≤ ons.length + 6 ∧ offs1.length ≤ offs.length + 6 := by
  refine ⟨_, _, cond_group_spec d size c p c0 cp g l ons offs h hon hoff, rfl, rfl, ?_, ?_⟩
  · have := rising_length c p
    by_cases hd : d
    · rw [if_pos hd, List.length_append, List.length_map]; omega
    · rw [if_neg hd, List.append_nil]; omega
  · have := falling_length c p
    by_cases hd : d
    · rw [if_pos hd, List.length_append, List.length_map]; omega
    · rw [if_neg hd, List.append_nil]; omega

/-- The queues filled by `process_keys_MIDI` have received the notes of the
handled keys that went down, respectively up, in ascending order of key
index; neither counter wraps. -/
theorem fill_queues_spec (b : Build) (s : State) :
    locals_hold b.KEYS_NUMBER (fill_queues b s) ((pressed_keys b s).map (note_of b s))
      ((released_keys b s).map (note_of b s)) := by
  have hp := chunks_48 b s (fun c p k => key_flag c k && !key_flag p k)
  have hr := chunks_48 b s (fun c p k => !key_flag c k && key_flag p k)
  unfold fill_queues
  simp only []
  obtain ⟨A0, B0, ea0, eb0, la0, lb0⟩ :
      ∃ A0 B0 : List Nat, A0 = [] ∧ B0 = [] ∧ A0.length ≤ 0 ∧ B0.length ≤ 0 :=
    ⟨[], [], rfl, rfl, Nat.le_refl _, Nat.le_refl _⟩
  have s0 : locals_hold b.KEYS_NUMBER
      (⟨List.replicate b.KEYS_NUMBER 0, 0, List.replicate b.KEYS_NUMBER 0, 0, [], []⟩ : Locals)
      A0 B0 := by
    rw [ea0, eb0]
    simp [locals_hold, queue_holds]
  obtain ⟨A1, B1, s1, ea1, eb1, la1, lb1⟩ := group_block_step b.KEYS_NUMBER s.keys_0
    s.keys_0_last b.MIDI_C0 (current_pitch_0 s) 0 _ A0 B0 s0 (by omega) (by omega)
  obtain ⟨A2, B2, s2, ea2, eb2, la2, lb2⟩ := group_block_step b.KEYS_NUMBER s.keys_6
    s.keys_6_last b.MIDI_C0 (current_pitch_0 s) 6 _ A1 B1 s1 (by omega) (by omega)
  obtain ⟨A3, B3, s3, ea3, eb3, la3, lb3⟩ := cond_group_step (b.KEYS_NUMBER ≥ 12)
    b.KEYS_NUMBER s.keys_12 s.keys_12_last b.MIDI_C0 (current_pitch_0 s) 12 _ A2 B2 s2
    (by omega) (by omega)
  obtain ⟨A4, B4, s4, ea4, eb4, la4, lb4⟩ := cond_group_step (b.KEYS_NUMBER ≥ 18)
    b.KEYS_NUMBER s.keys_18 s.keys_18_last b.MIDI_C0 (current_pitch_0 s) 18 _ A3 B3 s3
    (by omega) (by omega)
  obtain ⟨A5, B5, s5, ea5, eb5, la5, lb5⟩ := cond_group_step (b.KEYS_NUMBER ≥ 24)
    b.KEYS_NUMBER s.keys_24 s.keys_24_last b.MIDI_C0 (current_pitch_0 s) 24 _ A4 B4 s4
    (by omega) (by omega)
  obtain ⟨A6, B6, s6, ea6, eb6, la6, lb6⟩ := cond_group_step (b.KEYS_NUMBER ≥ 30)
    b.KEYS_NUMBER s.keys_30 s.keys_30_last b.MIDI_C0 (current_pitch_0 s) 30 _ A5 B5 s5
    (by omega) (by omega)
  obtain ⟨A7, B7, s7, ea7, eb7, la7, lb7⟩ := cond_group_step (b.KEYS_NUMBER ≥ 36)
    b.KEYS_NUMBER s.keys_36 s.keys_36_last b.MIDI_C0 (current_pitch_0 s) 36 _ A6 B6 s6
    (by omega) (by omega)
  obtain ⟨A8, B8, s8, ea8, eb8, la8, lb8⟩ := cond_group_step (b.KEYS_NUMBER ≥ 42)
    b.KEYS_NUMBER s.keys_42 s.keys_42_last b.MIDI_C0 (current_pitch_0 s) 42 _ A7 B7 s7
    (by omega) (by omega)
  have e1 : (pressed_keys b s).map (note_of b s) = A8 := by
    rw [ea8, ea7, ea6, ea5, ea4, ea3, ea2, ea1, ea0]
    exact hp
  have e2 : (released_keys b s).map (note_of b s) = B8 := by
    rw [eb8, eb7, eb6, eb5, eb4, eb3, eb2, eb1, eb0]
    exact hr
  rw [e1, e2]
  exact s8

/-! ## The bytes sent -/

theorem frame_length (status : Nat) (ons offs : List Nat) :
    (frame status ons offs).length
      = if ons.length + offs.length > 0 then 1 + 2 * (ons.length + offs.length) else 0 := by
  have h : ∀ (v : Nat) (xs : List Nat), (xs.flatMap (fun n => [n, v])).length = 2 * xs.length := by
    intro v xs
    induction xs with
    | nil => rfl
    | cons x xs ih => simp [List.flatMap_cons, ih]; omega
  unfold frame
  split
  · simp [h]; omega
  · rfl

theorem send_queue_spec (queue : List Nat) (velocity : Nat) :
    ∀ (n i : Nat) (s : State), i + n ≤ queue.length → i + n < 256 →
      send_queue queue velocity n i s
        = some { s with usart := s.usart
              ++ ((queue.drop i).take n).flatMap (fun x => [x % 256, velocity % 256]) } := by
  intro n
  induction n with
  | zero => intro i s _ _; simp [send_queue]
  | succ n ih =>
    intro i s hq h
    have hi : (i + 1) % 256 = i + 1 := Nat.mod_eq_of_lt (by omega)
    have hlt : i < queue.length := by omega
    rw [send_queue, List.getElem?_eq_getElem hlt]
    simp only []
    rw [hi, ih (i + 1) _ (by omega) (by omega), List.drop_eq_getElem_cons hlt,
      List.take_succ_cons, List.flatMap_cons]
    simp [USART_SEND]

theorem note_of_lt (b : Build) (s : State) (j : Nat) : note_of b s j < 256 :=
  Nat.mod_lt _ (by decide)

theorem pressed_keys_length (b : Build) (s : State) : (pressed_keys b s).length ≤ 48 := by
  have h := List.length_filter_le (fun j => handled b j && is_press s j) (List.range 48)
  simpa [pressed_keys] using h

theorem released_keys_length (b : Build) (s : State) : (released_keys b s).length ≤ 48 := by
  have h := List.length_filter_le (fun j => handled b j && is_release s j) (List.range 48)
  simpa [released_keys] using h

theorem fill_queues_len (b : Build) (s : State) :
    (fill_queues b s).note_ON_queue_len = (pressed_keys b s).length
      ∧ (fill_queues b s).note_OFF_queue_len = (released_keys b s).length := by
  obtain ⟨h1, h2⟩ := fill_queues_spec b s
  exact ⟨by rw [h1.2.1, List.length_map], by rw [h2.2.1, List.length_map]⟩

theorem queue_holds_fits (size : Nat) (cells : List Nat) (len : Nat) (stray : List (Nat × Nat))
    (notes : List Nat) (h : queue_holds size cells len stray notes) (hl : notes.length ≤ size) :
    stray = [] ∧ cells.take len = notes ∧ len ≤ cells.length := by
  obtain ⟨h0, h1, h2, h3⟩ := h
  rw [List.drop_eq_nil_of_le hl] at h3
  rw [List.take_of_length_le hl] at h2
  exact ⟨List.map_eq_nil_iff.mp h3, h2, by omega⟩

theorem queue_holds_overflows (size : Nat) (cells : List Nat) (len : Nat)
    (stray : List (Nat × Nat)) (notes : List Nat) (h : queue_holds size cells len stray notes)
    (hl : ¬ notes.length ≤ size) : stray.isEmpty = false := by
  obtain ⟨_, _, _, h3⟩ := h
  cases stray with
  | nil =>
    have := congrArg List.length h3
    rw [List.length_drop] at this
    simp at this
    omega
  | cons x xs => rfl

/-- In a call that is in bounds no write is stray and the cells below the
counters are the notes of the keys that went down, respectively up. -/
theorem fill_queues_in_bounds (b : Build) (s : State) (hb : in_bounds b s = true) :
    (fill_queues b s).stray_ON = [] ∧ (fill_queues b s).stray_OFF = []
      ∧ queued_ON (fill_queues b s) = (pressed_keys b s).map (note_of b s)
      ∧ queued_OFF (fill_queues b s) = (released_keys b s).map (note_of b s) := by
  obtain ⟨h1, h2⟩ := fill_queues_spec b s
  simp only [in_bounds, Bool.and_eq_true, decide_eq_true_eq] at hb
  obtain ⟨a1, a2, _⟩ := queue_holds_fits _ _ _ _ _ h1 (by rw [List.length_map]; exact hb.1)
  obtain ⟨c1, c2, _⟩ := queue_holds_fits _ _ _ _ _ h2 (by rw [List.length_map]; exact hb.2)
  exact ⟨a1, c1, a2, c2⟩

theorem fill_queues_fit (b : Build) (s : State) (hb : in_bounds b s = true) :
    (fill_queues b s).note_ON_queue_len ≤ (fill_queues b s).note_ON_queue.length
      ∧ (fill_queues b s).note_OFF_queue_len ≤ (fill_queues b s).note_OFF_queue.length := by
  obtain ⟨h1, h2⟩ := fill_queues_spec b s
  simp only [in_bounds, Bool.and_eq_true, decide_eq_true_eq] at hb
  obtain ⟨_, _, a3⟩ := queue_holds_fits _ _ _ _ _ h1 (by rw [List.length_map]; exact hb.1)
  obtain ⟨_, _, c3⟩ := queue_holds_fits _ _ _ _ _ h2 (by rw [List.length_map]; exact hb.2)
  exact ⟨a3, c3⟩

/-- In a call that is not in bounds a write is stray. -/
theorem fill_queues_out_of_bounds (b : Build) (s : State) (hb : in_bounds b s = false) :
    ((fill_queues b s).stray_ON.isEmpty && (fill_queues b s).stray_OFF.isEmpty) = false := by
  obtain ⟨h1, h2⟩ := fill_queues_spec b s
  by_cases hp : (pressed_keys b s).length ≤ b.KEYS_NUMBER
  · have hr : ¬ (released_keys b s).length ≤ b.KEYS_NUMBER := by
      intro hr
      simp [in_bounds, hp, hr] at hb
    rw [queue_holds_overflows _ _ _ _ _ h2 (by rw [List.length_map]; exact hr), Bool.and_false]
  · rw [queue_holds_overflows _ _ _ _ _ h1 (by rw [List.length_map]; exact hp), Bool.false_and]

theorem flatMap_queue (v : Nat) (keys : List Nat) (f : Nat → Nat) (hf : ∀ j, f j < 256) :
    (keys.map f).flatMap (fun x => [x % 256, v % 256])
      = (keys.map f).flatMap (fun n => [n, v % 256]) := by
  induction keys with
  | nil => rfl
  | cons x xs ih =>
    simp only [List.map_cons, List.flatMap_cons, Nat.mod_eq_of_lt (hf x)]
    rw [ih]

/-- The effect of `process_keys_MIDI`: in a call that is in bounds it appends
one frame to the serial stream and changes nothing else; a call that is not
in bounds has no result. -/
theorem process_keys_MIDI_eq (b : Build) (s : State) :
    process_keys_MIDI b s
      = if in_bounds b s = true then
          some { s with
            usart := s.usart ++ (frame ((MIDI_MSG_NOTE_ON ||| b.MIDI_CHANNEL) % 256)
              ((pressed_keys b s).map (note_of b s)) ((released_keys b s).map (note_of b s))) }
        else none := by
  unfold process_keys_MIDI
  simp only []
  by_cases hb : in_bounds b s = true
  · obtain ⟨t1, t2, q1, q2⟩ := fill_queues_in_bounds b s hb
    obtain ⟨f1, f2⟩ := fill_queues_fit b s hb
    obtain ⟨n1, n2⟩ := fill_queues_len b s
    have k1 := pressed_keys_length b s
    have k2 := released_keys_length b s
    unfold queued_ON at q1
    unfold queued_OFF at q2
    rw [if_pos hb, t1, t2]
    simp only [List.isEmpty_nil, Bool.and_self, if_true]
    unfold send_notes frame
    simp only [List.length_map]
    rw [← n1, ← n2]
    split
    · rw [send_queue_spec _ _ _ 0 _ (by omega) (by omega), Option.some_bind,
        send_queue_spec _ _ _ 0 _ (by omega) (by omega), List.drop_zero, List.drop_zero, q1, q2,
        flatMap_queue 0x40 _ (note_of b s) (note_of_lt b s),
        flatMap_queue 0x00 _ (note_of b s) (note_of_lt b s)]
      simp [USART_SEND]
    · simp
  · have hb' : in_bounds b s = false := by simpa using hb
    rw [if_neg hb, fill_queues_out_of_bounds b s hb']
    rfl

theorem sent_eq (b : Build) (s : State) :
    sent b s
      = if in_bounds b s = true then
          some (frame ((MIDI_MSG_NOTE_ON ||| b.MIDI_CHANNEL) % 256)
            ((pressed_keys b s).map (note_of b s)) ((released_keys b s).map (note_of b s)))
        else none := by
  rw [sent, process_keys_MIDI_eq]
  split
  · simp
  · rfl

theorem status_byte (b : Build) (h : b.MIDI_CHANNEL < 16) :
    (MIDI_MSG_NOTE_ON ||| b.MIDI_CHANNEL) % 256 = MIDI_MSG_NOTE_ON ||| b.MIDI_CHANNEL := by
  apply Nat.mod_eq_of_lt
  have h1 : MIDI_MSG_NOTE_ON < 2 ^ 8 := by decide
  have h2 : b.MIDI_CHANNEL < 2 ^ 8 := by omega
  exact Nat.or_lt_two_pow h1 h2

theorem flatMap_map (f : Nat → Nat) (v : Nat) (xs : List Nat) :
    (xs.map f).flatMap (fun n => [n, v]) = xs.flatMap (fun j => [f j, v]) := by
  induction xs with
  | nil => rfl
  | cons x xs ih => simp [List.flatMap_cons, ih]


/-! ## The claims -/

/-- C1 fails on the code: with `KEYS_NUMBER = 36`, in a cycle where 39 keys go
down and 3 go up, the queue counters are 39 and 3, so the claim has the call
send `1 + 2 * 42` bytes with the pair of every Press; but the notes of keys
36, 37 and 38 are written at indices 36, 37 and 38, outside `note_ON_queue`,
and the call has no defined result. -/
theorem frame_undefined_on_overflow :
    configured.KEYS_NUMBER = 36
      ∧ (fill_queues configured presses_39_releases_3).note_ON_queue.length = 36
      ∧ (fill_queues configured presses_39_releases_3).note_ON_queue_len = 39
      ∧ (fill_queues configured presses_39_releases_3).note_OFF_queue_len = 3
      ∧ (fill_queues configured presses_39_releases_3).stray_ON
        = [(36, 132), (37, 133), (38, 134)]
      ∧ queued_OFF (fill_queues configured presses_39_releases_3) = [135, 136, 137]
      ∧ sent configured presses_39_releases_3 = none := by
  decide

theorem edge_count (a b : Bool) :
    (if (a && !b) = true then [0] else []).length + (if (!a && b) = true then [0] else []).length
      = (if (a ^^ b) = true then [0] else []).length := by
  cases a <;> cases b <;> rfl

/-- The flags that change between two bytes of a group are counted by the
population count of their exclusive or, restricted to the six key flags. -/
theorem rising_falling_count (c p : Nat) :
    (rising c p).length + (falling c p).length = popcount ((c ^^^ p) &&& KEYS_RELEVANT_MSK) := by
  have hm : ∀ i, i < 8 → KEYS_RELEVANT_MSK.testBit i = decide (2 ≤ i) := by decide
  have h : ∀ (q : Nat → Bool) (xs : List Nat),
      (xs.filter q).length = ((xs.filter q).map (fun _ => 0)).length := by
    intro q xs; rw [List.length_map]
  unfold popcount rising falling
  rw [h, h, h]
  simp only [map_filter_flatMap, range_six]
  have r8 : List.range 8 = [0, 1, 2, 3, 4, 5, 6, 7] := by decide
  rw [r8]
  simp only [List.flatMap_cons, List.flatMap_nil, List.length_append, Nat.testBit_and,
    Nat.testBit_xor, hm 0 (by decide), hm 1 (by decide), hm 2 (by decide), hm 3 (by decide),
    hm 4 (by decide), hm 5 (by decide), hm 6 (by decide), hm 7 (by decide), key_flag]
  have e0 := edge_count (c.testBit 2) (p.testBit 2)
  have e1 := edge_count (c.testBit 3) (p.testBit 3)
  have e2 := edge_count (c.testBit 4) (p.testBit 4)
  have e3 := edge_count (c.testBit 5) (p.testBit 5)
  have e4 := edge_count (c.testBit 6) (p.testBit 6)
  have e5 := edge_count (c.testBit 7) (p.testBit 7)
  simp only [Nat.reduceAdd, Nat.reduceLeDiff, decide_True, decide_False, Bool.and_true,
    Bool.and_false, Bool.false_eq_true, if_false, List.length_nil, Nat.zero_add,
    Nat.add_zero] at *
  omega

theorem note_of_exact (b : Build) (s : State) (j : Nat)
    (h0 : 0 ≤ (b.MIDI_C0 : Int) + s.pitch_0) (h1 : (b.MIDI_C0 : Int) + s.pitch_0 + 47 < 256)
    (hj : j < 48) : (note_of b s j : Int) = (b.MIDI_C0 : Int) + s.pitch_0 + j := by
  unfold note_of current_pitch_0
  have ht : ((s.pitch_0 % 256).toNat : Int) = s.pitch_0 % 256 :=
    Int.toNat_of_nonneg (Int.emod_nonneg _ (by decide))
  push_cast
  rw [ht]
  omega

theorem note_of_injective (b : Build) (s : State) (i j : Nat) (hi : i < 48) (hj : j < 48)
    (h : note_of b s i = note_of b s j) : i = j := by
  unfold note_of at h
  omega

theorem mem_pressed_keys (b : Build) (s : State) (j : Nat) :
    j ∈ pressed_keys b s ↔ handled b j = true ∧ is_press s j = true := by
  unfold pressed_keys
  rw [List.mem_filter, List.mem_range, Bool.and_eq_true]
  constructor
  · exact fun h => h.2
  · intro h
    refine ⟨?_, h⟩
    have := h.1
    simp only [handled, Bool.or_eq_true, Bool.and_eq_true, decide_eq_true_eq] at this
    omega

theorem mem_released_keys (b : Build) (s : State) (j : Nat) :
    j ∈ released_keys b s ↔ handled b j = true ∧ is_release s j = true := by
  unfold released_keys
  rw [List.mem_filter, List.mem_range, Bool.and_eq_true]
  constructor
  · exact fun h => h.2
  · intro h
    refine ⟨?_, h⟩
    have := h.1
    simp only [handled, Bool.or_eq_true, Bool.and_eq_true, decide_eq_true_eq] at this
    omega

theorem pressed_keys_sorted (b : Build) (s : State) :
    (pressed_keys b s).Pairwise (fun i j => i < j) :=
  List.Pairwise.sublist (List.filter_sublist _) (List.pairwise_lt_range 48)

theorem released_keys_sorted (b : Build) (s : State) :
    (released_keys b s).Pairwise (fun i j => i < j) :=
  List.Pairwise.sublist (List.filter_sublist _) (List.pairwise_lt_range 48)

/-- C4 fails on the code: with queues of 36 cells, in the cycle where the 36
keys of the first six groups and keys 36 and 37 go down and key 38 goes up,
the Press notes 132 and 133 are written at indices 36 and 37, outside
`note_ON_queue`, before the Release note 134 is stored in `note_OFF_queue`;
the call then reads 38 cells of the 36-cell array and has no defined result,
so the order of the bytes it sends is not fixed by the code. -/
theorem order_undefined_on_overflow :
    pressed_keys configured presses_38_release_1 = List.range 38
      ∧ released_keys configured presses_38_release_1 = [38]
      ∧ (fill_queues configured presses_38_release_1).note_ON_queue_len = 38
      ∧ (fill_queues configured presses_38_release_1).stray_ON = [(36, 132), (37, 133)]
      ∧ queued_OFF (fill_queues configured presses_38_release_1) = [134]
      ∧ in_bounds configured presses_38_release_1 = false
      ∧ sent configured presses_38_release_1 = none := by
  decide

theorem filter_range_single (q : Nat → Bool) (i : Nat) (hi : i < 48)
    (h : ∀ j, j < 48 → q j = decide (j = i)) : (List.range 48).filter q = [i] := by
  have h1 : (List.range 48).filter q = (List.range 48).filter (fun j => decide (j = i)) := by
    apply List.filter_congr
    intro j hj
    exact h j (List.mem_range.mp hj)
  rw [h1]
  interval_cases i <;> rfl

theorem filter_range_none (q : Nat → Bool) (h : ∀ j, j < 48 → q j = false) :
    (List.range 48).filter q = [] := by
  rw [List.filter_eq_nil_iff]
  intro j hj
  rw [h j (List.mem_range.mp hj)]
  exact Bool.false_ne_true

/-- C5: when the MIDI channel is in 0..15, the queues have at least one cell,
`MIDI_C0 + pitch_0 + key index` fits a byte, the flag of key index `i` (of a
group the build compiles in) is the only key flag set in the current bytes and
no key flag is set in the previous bytes, one call of `process_keys_MIDI`
sends exactly `[MIDI_MSG_NOTE_ON | MIDI_CHANNEL, MIDI_C0 + pitch_0 + i, 0x40]`;
with `pitch_0 = 36`, `MIDI_C0 = 60`, channel 0 and `i = 0` these are the three
bytes `[0x90, 96, 0x40]`. -/
theorem single_key_press :
    (∀ (b : Build) (s : State) (i : Nat), b.MIDI_CHANNEL < 16 → 0 < b.KEYS_NUMBER →
        0 ≤ (b.MIDI_C0 : Int) + s.pitch_0 → (b.MIDI_C0 : Int) + s.pitch_0 + 47 < 256 →
        handled b i = true →
        (∀ j, j < 48 → key_flag (key_byte s j) (j % 6) = decide (j = i)) →
        (∀ j, j < 48 → key_flag (key_byte_last s j) (j % 6) = false) →
        sent b s
          = some [MIDI_MSG_NOTE_ON ||| b.MIDI_CHANNEL,
              ((b.MIDI_C0 : Int) + s.pitch_0 + i).toNat, 0x40])
      ∧ (∀ s : State, s.pitch_0 = 36 →
        (∀ j, j < 48 → key_flag (key_byte s j) (j % 6) = decide (j = 0)) →
        (∀ j, j < 48 → key_flag (key_byte_last s j) (j % 6) = false) →
        sent configured s = some [0x90, 96, 0x40]) := by
  have main : ∀ (b : Build) (s : State) (i : Nat), b.MIDI_CHANNEL < 16 → 0 < b.KEYS_NUMBER →
      0 ≤ (b.MIDI_C0 : Int) + s.pitch_0 → (b.MIDI_C0 : Int) + s.pitch_0 + 47 < 256 →
      handled b i = true →
      (∀ j, j < 48 → key_flag (key_byte s j) (j % 6) = decide (j = i)) →
      (∀ j, j < 48 → key_flag (key_byte_last s j) (j % 6) = false) →
      sent b s
        = some [MIDI_MSG_NOTE_ON ||| b.MIDI_CHANNEL, ((b.MIDI_C0 : Int) + s.pitch_0 + i).toNat,
            0x40] := by
    intro b s i hch hk h0 h1 hi hcur hlast
    have hi48 : i < 48 := by
      simp only [handled, Bool.or_eq_true, Bool.and_eq_true, decide_eq_true_eq] at hi
      omega
    have hp : pressed_keys b s = [i] := by
      apply filter_range_single _ i hi48
      intro j hj
      simp only [is_press, hcur j hj, hlast j hj]
      by_cases hji : j = i
      · subst hji; simp [hi]
      · simp [hji]
    have hr : released_keys b s = [] := by
      apply filter_range_none
      intro j hj
      simp [is_release, hlast j hj]
    have hn : note_of b s i = ((b.MIDI_C0 : Int) + s.pitch_0 + i).toNat := by
      have := note_of_exact b s i h0 h1 hi48
      omega
    have hb : in_bounds b s = true := by
      unfold in_bounds
      rw [hp, hr]
      simp only [List.length_cons, List.length_nil, Bool.and_eq_true, decide_eq_true_eq]
      omega
    rw [sent_eq, if_pos hb, hp, hr, status_byte b hch, ← hn]
    rfl
  refine ⟨main, ?_⟩
  intro s hp hcur hlast
  have h := main configured s 0 (by decide) (by decide) (by rw [hp]; decide) (by rw [hp]; decide)
    (by decide) hcur hlast
  rw [h, hp]
  rfl

theorem single_key_press_witness :
    sent configured key_0_down = some [0x90, 96, 0x40]
      ∧ sent configured { idle 36 with keys_12 := 0x08 } = some [0x90, 60 + 36 + 13, 0x40] :=
  ⟨single_key_press.2 key_0_down rfl (by decide) (by decide),
    single_key_press.1 configured { idle 36 with keys_12 := 0x08 } 13 (by decide) (by decide)
      (by decide) (by decide) (by decide) (by decide) (by decide)⟩

/-- C6, as stated, fails: starting idle with `pitch_0 = 36`, the cycle in
which key 0 goes down sends `[0x90, 96, 0x40]`, and the next cycle, in which
key 0 goes up and nothing else changes, does not send the two bytes
`[96, 0x00]`: it sends the three bytes `[0x90, 96, 0x00]`. -/
theorem release_cycle_not_two_bytes :
    midi_loop configured press_key_0 (idle 36) = some key_0_held
      ∧ key_0_held.usart = [0x90, 96, 0x40]
      ∧ ¬ ((midi_loop configured release_key_0 key_0_held).map State.usart
            = some (key_0_held.usart ++ [96, 0x00]))
      ∧ (midi_loop configured release_key_0 key_0_held).map State.usart
            = some (key_0_held.usart ++ [0x90, 96, 0x00]) := by
  decide

theorem keep_keys_usart (b : Build) (s : State) : (keep_keys b s).usart = s.usart := by
  unfold keep_keys
  simp only []
  repeat' split
  all_goals rfl

theorem in_bounds_of_lists (b : Build) (s : State) (ps rs : List Nat)
    (hp : pressed_keys b s = ps) (hr : released_keys b s = rs)
    (h1 : ps.length ≤ b.KEYS_NUMBER) (h2 : rs.length ≤ b.KEYS_NUMBER) :
    in_bounds b s = true := by
  unfold in_bounds
  rw [hp, hr, Bool.and_eq_true, decide_eq_true_eq, decide_eq_true_eq]
  exact ⟨h1, h2⟩

/-- C6, amended: in the build of keyboard.h with `MIDI_C0 = 60` and channel 0,
consider an iteration of the `midi_behaviour` loop in which, when
`process_keys_MIDI` is called, `pitch_0` is 36, the flag of key 0 is set in
`keys_0_last` (key 0 was down in the earlier cycle) and clear in `keys_0`, and
every other key flag is the same in the current and previous bytes.  From
that call to the end of the iteration exactly the three bytes
`[0x90, 96, 0x00]` are sent: the Note-On status byte is sent again, followed
by the note with velocity 0. -/
theorem release_cycle_three_bytes (e : Extern) (s : State)
    (hp : (before_keys configured e s).pitch_0 = 36)
    (hup : key_flag (before_keys configured e s).keys_0 0 = false)
    (hwas : key_flag (before_keys configured e s).keys_0_last 0 = true)
    (hsame : ∀ j, j < 48 → j ≠ 0 →
      key_flag (key_byte (before_keys configured e s) j) (j % 6)
        = key_flag (key_byte_last (before_keys configured e s) j) (j % 6)) :
    (midi_loop configured e s).map State.usart
      = some ((before_keys configured e s).usart ++ [0x90, 96, 0x00]) := by
  unfold midi_loop
  generalize before_keys configured e s = c at hp hup hwas hsame ⊢
  have hpk : pressed_keys configured c = [] := by
    apply filter_range_none
    intro j hj
    by_cases hj0 : j = 0
    · subst hj0
      have : key_flag (key_byte c 0) (0 % 6) = false := hup
      simp [is_press, this]
    · simp [is_press, hsame j hj hj0]
  have hrk : released_keys configured c = [0] := by
    apply filter_range_single _ 0 (by decide)
    intro j hj
    by_cases hj0 : j = 0
    · subst hj0
      have h1 : key_flag (key_byte c 0) (0 % 6) = false := hup
      have h2 : key_flag (key_byte_last c 0) (0 % 6) = true := hwas
      simp only [is_release, h1, h2]
      decide
    · simp [is_release, hsame j hj hj0, hj0]
  have hn : note_of configured c 0 = 96 := by
    unfold note_of current_pitch_0
    rw [hp]
    rfl
  have hb : in_bounds configured c = true :=
    in_bounds_of_lists configured c [] [0] hpk hrk (by decide) (by decide)
  rw [process_keys_MIDI_eq, if_pos hb, hpk, hrk]
  simp only [List.map_cons, List.map_nil, hn, Option.map_some']
  rw [keep_keys_usart]
  rfl

theorem release_cycle_three_bytes_witness :
    (midi_loop configured release_key_0 key_0_held).map State.usart
      = some ((before_keys configured release_key_0 key_0_held).usart ++ [0x90, 96, 0x00]) :=
  release_cycle_three_bytes release_key_0 key_0_held (by decide) (by decide) (by decide)
    (by decide)

/-- C7 fails on the code: with `KEYS_NUMBER = 36` the block of `keys_36` is
compiled in (`#if KEYS_NUMBER >= 36`), so when the 42 keys of the seven groups
go down in one cycle `note_ON_queue_len` reaches 42, above the 36 cells of
`note_ON_queue`, the notes of keys 36 to 41 being written at indices 36 to
41, outside the array; likewise `note_OFF_queue_len` reaches 42 when they all
go up, with six writes outside `note_OFF_queue`. -/
theorem queue_counters_exceed_KEYS_NUMBER :
    configured.KEYS_NUMBER = 36
      ∧ (fill_queues configured all_keys_down).note_ON_queue_len = 42
      ∧ ¬ ((fill_queues configured all_keys_down).note_ON_queue_len ≤ configured.KEYS_NUMBER)
      ∧ (fill_queues configured all_keys_down).stray_ON
        = [(36, 60 + 36 + 36), (37, 60 + 36 + 37), (38, 60 + 36 + 38), (39, 60 + 36 + 39),
            (40, 60 + 36 + 40), (41, 60 + 36 + 41)]
      ∧ (fill_queues configured all_keys_up).note_OFF_queue_len = 42
      ∧ ¬ ((fill_queues configured all_keys_up).note_OFF_queue_len ≤ configured.KEYS_NUMBER)
      ∧ (fill_queues configured all_keys_up).stray_OFF
        = [(36, 60 + 36 + 36), (37, 60 + 36 + 37), (38, 60 + 36 + 38), (39, 60 + 36 + 39),
            (40, 60 + 36 + 40), (41, 60 + 36 + 41)] := by
  decide

/-- C8 fails on the code: with `KEYS_NUMBER = 36` a seventh snapshot,
`keys_36`, is examined, and a rising flag 0 in it makes `process_keys_MIDI`
send a Press for key index 36, which is not below `KEYS_NUMBER`. -/
theorem key_index_36_is_handled :
    configured.KEYS_NUMBER = 36
      ∧ pressed_keys configured key_36_down = [36]
      ∧ queued_ON (fill_queues configured key_36_down) = [60 + 36 + 36]
      ∧ sent configured key_36_down = some [0x90, 60 + 36 + 36, 0x40]
      ∧ sent configured { key_36_down with keys_36 := 0 } = some [] := by
  decide

theorem sent_congr (b : Build) (s : State) (u : List Nat) :
    sent b { s with usart := u } = sent b s := by
  rw [sent_eq, sent_eq]
  rfl

theorem process_keys_MIDI_eq_sent (b : Build) (s : State) :
    process_keys_MIDI b s
      = (sent b s).map (fun bytes => { s with usart := s.usart ++ bytes }) := by
  rw [sent_eq, process_keys_MIDI_eq]
  split <;> rfl

theorem process_keys_MIDI_isSome (b : Build) (s : State) :
    (process_keys_MIDI b s).isSome = in_bounds b s := by
  rw [process_keys_MIDI_eq]
  cases in_bounds b s <;> rfl

theorem sent_of_result (b : Build) (s r : State) (h : process_keys_MIDI b s = some r) :
    ∃ bytes, sent b s = some bytes ∧ r = { s with usart := s.usart ++ bytes } := by
  rw [process_keys_MIDI_eq_sent] at h
  cases hs : sent b s with
  | none => rw [hs] at h; exact Option.noConfusion h
  | some bytes =>
    rw [hs] at h
    exact ⟨bytes, rfl, (Option.some.inj h).symm⟩

/-- C9: `process_keys_MIDI` changes nothing but the serial stream, to which it
appends the bytes it sends: every key-group byte, every previous byte and
`pitch_0` are as before; a second call made right after the first, the
previous snapshots not having been advanced, sends the same bytes again.  The
call has a result exactly when at most `KEYS_NUMBER` keys go down and at most
`KEYS_NUMBER` go up, and neither what it writes to its queues nor what it
sends depends on the bytes sent earlier. -/
theorem process_keys_MIDI_repeatable (b : Build) (s : State) :
    process_keys_MIDI b s = (sent b s).map (fun bytes => { s with usart := s.usart ++ bytes })
      ∧ (process_keys_MIDI b s).isSome = in_bounds b s
      ∧ (∀ u, fill_queues b { s with usart := u } = fill_queues b s)
      ∧ (∀ u, sent b { s with usart := u } = sent b s)
      ∧ (∀ r, process_keys_MIDI b s = some r →
          (∀ j, key_byte r j = key_byte s j)
            ∧ (∀ j, key_byte_last r j = key_byte_last s j)
            ∧ r.pitch_0 = s.pitch_0
            ∧ sent b r = sent b s
            ∧ ∃ bytes, sent b s = some bytes
                ∧ r.usart = s.usart ++ bytes
                ∧ (process_keys_MIDI b r).map State.usart
                    = some (s.usart ++ bytes ++ bytes)) := by
  refine ⟨process_keys_MIDI_eq_sent b s, process_keys_MIDI_isSome b s, fun _ => rfl,
    sent_congr b s, ?_⟩
  intro r hr
  obtain ⟨bytes, hs, rfl⟩ := sent_of_result b s r hr
  have h2 : sent b { s with usart := s.usart ++ bytes } = sent b s := sent_congr b s _
  refine ⟨fun _ => rfl, fun _ => rfl, rfl, h2, bytes, hs, rfl, ?_⟩
  rw [process_keys_MIDI_eq_sent, h2, hs]
  rfl

theorem process_keys_MIDI_repeatable_witness :
    process_keys_MIDI configured key_0_down
        = some { key_0_down with usart := [0x90, 96, 0x40] }
      ∧ sent configured { key_0_down with usart := [0x90, 96, 0x40] }
        = sent configured key_0_down
      ∧ sent configured key_0_down = some [0x90, 96, 0x40] :=
  ⟨by decide,
    ((process_keys_MIDI_repeatable configured key_0_down).2.2.2.2
      { key_0_down with usart := [0x90, 96, 0x40] } (by decide)).2.2.2.1,
    by decide⟩

theorem keep_keys_eq (b : Build) (s : State) :
    keep_keys b s
      = { s with
          keys_0_last := s.keys_0
          keys_6_last := s.keys_6
          keys_12_last := if b.KEYS_NUMBER ≥ 12 then s.keys_12 else s.keys_12_last
          keys_18_last := if b.KEYS_NUMBER ≥ 18 then s.keys_18 else s.keys_18_last
          keys_24_last := if b.KEYS_NUMBER ≥ 24 then s.keys_24 else s.keys_24_last
          keys_30_last := if b.KEYS_NUMBER ≥ 30 then s.keys_30 else s.keys_30_last
          keys_36_last := if b.KEYS_NUMBER ≥ 36 then s.keys_36 else s.keys_36_last
          keys_42_last := if b.KEYS_NUMBER ≥ 42 then s.keys_42 else s.keys_42_last } := by
  unfold keep_keys
  by_cases h12 : b.KEYS_NUMBER ≥ 12 <;> by_cases h18 : b.KEYS_NUMBER ≥ 18 <;>
    by_cases h24 : b.KEYS_NUMBER ≥ 24 <;> by_cases h30 : b.KEYS_NUMBER ≥ 30 <;>
    by_cases h36 : b.KEYS_NUMBER ≥ 36 <;> by_cases h42 : b.KEYS_NUMBER ≥ 42 <;>
    simp only [h12, h18, h24, h30, h36, h42, if_true, if_false]

theorem keep_keys_spec (b : Build) (s : State) :
    (∀ j, handled b j = true → key_byte_last (keep_keys b s) j = key_byte s j)
      ∧ (∀ j, key_byte (keep_keys b s) j = key_byte s j)
      ∧ (keep_keys b s).buttons_settings = s.buttons_settings
      ∧ (keep_keys b s).buttons_settings_last = s.buttons_settings_last := by
  rw [keep_keys_eq]
  refine ⟨?_, fun j => rfl, rfl, rfl⟩
  intro j hj
  simp only [handled, Bool.or_eq_true, Bool.and_eq_true, decide_eq_true_eq] at hj
  unfold key_byte_last key_byte
  have hk : j / 6 < 8 := by omega
  generalize hq : j / 6 = k at hk hj
  interval_cases k
  · rfl
  · rfl
  all_goals
    simp only []
    rw [if_pos (by omega)]

theorem send_vibrato_frame (b : Build) (s : State) :
    (send_vibrato b s).buttons_settings_last = s.buttons_settings_last
      ∧ ∀ j, key_byte_last (send_vibrato b s) j = key_byte_last s j := by
  unfold send_vibrato key_byte_last
  split
  · split
    · exact ⟨rfl, fun _ => rfl⟩
    · exact ⟨rfl, fun _ => rfl⟩
  · exact ⟨rfl, fun _ => rfl⟩

theorem send_tremolo_frame (b : Build) (s : State) :
    (send_tremolo b s).buttons_settings_last = s.buttons_settings_last
      ∧ ∀ j, key_byte_last (send_tremolo b s) j = key_byte_last s j := by
  unfold send_tremolo key_byte_last
  split
  · split
    · exact ⟨rfl, fun _ => rfl⟩
    · exact ⟨rfl, fun _ => rfl⟩
  · exact ⟨rfl, fun _ => rfl⟩

theorem loop_pots_frame (b : Build) (e : Extern) (s : State) :
    (loop_pots b e s).buttons_settings_last
        = (if b.ENABLE_VIBRATO || b.ENABLE_TREMOLO then e.read_pots s else s).buttons_settings_last
      ∧ ∀ j, key_byte_last (loop_pots b e s) j
        = key_byte_last (if b.ENABLE_VIBRATO || b.ENABLE_TREMOLO then e.read_pots s else s) j := by
  unfold loop_pots
  generalize (if b.ENABLE_VIBRATO || b.ENABLE_TREMOLO then e.read_pots s else s) = s1
  obtain ⟨v1, v2⟩ := send_vibrato_frame b s1
  obtain ⟨t1, t2⟩ := send_tremolo_frame b (send_vibrato b s1)
  exact ⟨by rw [← v1, ← t1], fun j => by rw [← v2, ← t2]⟩

theorem midi_loop_eq (b : Build) (e : Extern) (s : State) :
    midi_loop b e s
      = (sent b (before_keys b e s)).map (fun bytes =>
          keep_keys b { before_keys b e s with usart := (before_keys b e s).usart ++ bytes }) := by
  unfold midi_loop
  rw [process_keys_MIDI_eq_sent, Option.map_map]
  rfl

theorem midi_loop_result (b : Build) (e : Extern) (s r : State) (h : midi_loop b e s = some r) :
    ∃ bytes, sent b (before_keys b e s) = some bytes
      ∧ r = keep_keys b
          { before_keys b e s with usart := (before_keys b e s).usart ++ bytes } := by
  rw [midi_loop_eq] at h
  cases hs : sent b (before_keys b e s) with
  | none => rw [hs] at h; exact Option.noConfusion h
  | some bytes =>
    rw [hs] at h
    exact ⟨bytes, rfl, (Option.some.inj h).symm⟩

theorem midi_loop_isSome (b : Build) (e : Extern) (s : State) :
    (midi_loop b e s).isSome = in_bounds b (before_keys b e s) := by
  unfold midi_loop
  rw [Option.isSome_map', process_keys_MIDI_isSome]

/-- C10: in one iteration of the `midi_behaviour` loop, with any
`read_pots`, `read_buttons` and `process_settings`: the code that runs before
`process_settings` writes no previous snapshot; `buttons_settings_last` is
assigned in the state that `process_settings` returned and is the only
variable written between `process_settings` and `process_keys_MIDI`, so
`process_keys_MIDI` still reads the previous key bytes that `process_settings`
left; whatever `process_keys_MIDI` appends to the serial stream, the
assignments that follow it make the previous byte of every key of a group the
build declares equal to the current byte; the iteration has a result exactly
when `process_keys_MIDI` has one (at most `KEYS_NUMBER` keys go down and at
most `KEYS_NUMBER` go up), and at its end the previous byte of every key of a
group the build declares equals the current byte that `process_keys_MIDI`
read, the current bytes are unchanged, and `buttons_settings_last` equals
`buttons_settings`. -/
theorem loop_read_then_advance (b : Build) (e : Extern) (s : State) :
    ((loop_pots b e s).buttons_settings_last
        = (if b.ENABLE_VIBRATO || b.ENABLE_TREMOLO then e.read_pots s else s).buttons_settings_last
      ∧ ∀ j, key_byte_last (loop_pots b e s) j
        = key_byte_last (if b.ENABLE_VIBRATO || b.ENABLE_TREMOLO then e.read_pots s else s) j)
      ∧ before_keys b e s
        = { e.process_settings (e.read_buttons (loop_pots b e s)) with
            buttons_settings_last
              := (e.process_settings (e.read_buttons (loop_pots b e s))).buttons_settings }
      ∧ (∀ j, key_byte_last (before_keys b e s) j
          = key_byte_last (e.process_settings (e.read_buttons (loop_pots b e s))) j)
      ∧ (∀ u j, handled b j = true →
          key_byte_last (keep_keys b { before_keys b e s with usart := u }) j
            = key_byte (before_keys b e s) j)
      ∧ (midi_loop b e s).isSome = in_bounds b (before_keys b e s)
      ∧ (midi_loop b e s).map State.usart
          = (sent b (before_keys b e s)).map (fun bytes => (before_keys b e s).usart ++ bytes)
      ∧ (∀ r, midi_loop b e s = some r →
          (∀ j, handled b j = true → key_byte_last r j = key_byte (before_keys b e s) j)
            ∧ (∀ j, key_byte r j = key_byte (before_keys b e s) j)
            ∧ r.buttons_settings_last = r.buttons_settings
            ∧ r.buttons_settings
                = (e.process_settings (e.read_buttons (loop_pots b e s))).buttons_settings) := by
  refine ⟨loop_pots_frame b e s, rfl, fun _ => rfl, ?_, midi_loop_isSome b e s, ?_, ?_⟩
  · intro u j hj
    rw [(keep_keys_spec b _).1 j hj]
    rfl
  · rw [midi_loop_eq, Option.map_map]
    congr 1
    funext bytes
    exact keep_keys_usart b _
  · intro r hr
    obtain ⟨bytes, _, rfl⟩ := midi_loop_result b e s r hr
    obtain ⟨k1, k2, k3, k4⟩ := keep_keys_spec b
      { before_keys b e s with usart := (before_keys b e s).usart ++ bytes }
    refine ⟨fun j hj => ?_, fun j => ?_, ?_, ?_⟩
    · rw [k1 j hj]; rfl
    · rw [k2]; rfl
    · rw [k3, k4]; rfl
    · rw [k3]; rfl

theorem loop_read_then_advance_witness :
    handled configured 36 = true
      ∧ midi_loop configured press_key_0 key_36_down
        = some { key_36_down with
            keys_0 := 0x04, keys_0_last := 0x04, keys_36_last := 0x04,
            usart := [0x90, 96, 0x40, 132, 0x40] }
      ∧ key_byte_last { key_36_down with
            keys_0 := 0x04, keys_0_last := 0x04, keys_36_last := 0x04,
            usart := [0x90, 96, 0x40, 132, 0x40] } 36
        = key_byte (before_keys configured press_key_0 key_36_down) 36 :=
  ⟨by decide, by decide,
    ((loop_read_then_advance configured press_key_0 key_36_down).2.2.2.2.2.2 _
      (by decide)).1 36 (by decide)⟩

/-! ## The potentiometer messages -/

theorem send_vibrato_eq (b : Build) (s : State) :
    send_vibrato b s
      = if b.ENABLE_VIBRATO = true ∧ s.ADC_vibrato_flag ≠ 0 then
          { s with
            usart := s.usart ++ [MIDI_MSG_PITCH_BEND % 256, 0x00, s.ADC_vibrato % 256]
            ADC_vibrato_flag := 0 }
        else s := by
  unfold send_vibrato
  cases hb : b.ENABLE_VIBRATO
  · simp
  · by_cases hf : s.ADC_vibrato_flag = 0
    · simp [hf]
    · simp [hf, USART_SEND]

theorem send_tremolo_eq (b : Build) (s : State) :
    send_tremolo b s
      = if b.ENABLE_TREMOLO = true ∧ s.ADC_tremolo_flag ≠ 0 then
          { s with
            usart := s.usart ++ [MIDI_MSG_CONTROLLER_CHANGE % 256, 0x07, s.ADC_tremolo % 256]
            ADC_tremolo_flag := 0 }
        else s := by
  unfold send_tremolo
  cases hb : b.ENABLE_TREMOLO
  · simp
  · by_cases hf : s.ADC_tremolo_flag = 0
    · simp [hf]
    · simp [hf, USART_SEND]

theorem loop_pots_eq (b : Build) (e : Extern) (s : State) :
    loop_pots b e s = send_tremolo b (send_vibrato b (after_read_pots b e s)) := rfl

/-- C11: in every iteration of the `midi_behaviour` loop, for every build,
with `r` the state after `read_pots` (the readings being bytes): lines 557 to
580 send exactly the vibrato message followed by the tremolo message, where
the tremolo message is the three bytes
`[MIDI_MSG_CONTROLLER_CHANGE, 0x07, ADC_tremolo]` when `ENABLE_TREMOLO` is
defined and `ADC_tremolo_flag` is nonzero in `r`, and nothing otherwise, and
the vibrato message is `[MIDI_MSG_PITCH_BEND, 0x00, ADC_vibrato]` when
`ENABLE_VIBRATO` is defined and `ADC_vibrato_flag` is nonzero in `r`, and
nothing otherwise; afterwards the flag of every enabled potentiometer is 0. -/
theorem pot_messages (b : Build) (e : Extern) (s : State)
    (hv : (after_read_pots b e s).ADC_vibrato < 256)
    (ht : (after_read_pots b e s).ADC_tremolo < 256) :
    (loop_pots b e s).usart
        = (after_read_pots b e s).usart
          ++ (if b.ENABLE_VIBRATO = true ∧ (after_read_pots b e s).ADC_vibrato_flag ≠ 0 then
              [MIDI_MSG_PITCH_BEND, 0x00, (after_read_pots b e s).ADC_vibrato] else [])
          ++ (if b.ENABLE_TREMOLO = true ∧ (after_read_pots b e s).ADC_tremolo_flag ≠ 0 then
              [MIDI_MSG_CONTROLLER_CHANGE, 0x07, (after_read_pots b e s).ADC_tremolo] else [])
      ∧ (b.ENABLE_TREMOLO = true → (loop_pots b e s).ADC_tremolo_flag = 0)
      ∧ (b.ENABLE_VIBRATO = true → (loop_pots b e s).ADC_vibrato_flag = 0) := by
  rw [loop_pots_eq]
  generalize after_read_pots b e s = r at hv ht
  have hv' : r.ADC_vibrato % 256 = r.ADC_vibrato := Nat.mod_eq_of_lt hv
  have ht' : r.ADC_tremolo % 256 = r.ADC_tremolo := Nat.mod_eq_of_lt ht
  have hpb : MIDI_MSG_PITCH_BEND % 256 = MIDI_MSG_PITCH_BEND := by decide
  have hcc : MIDI_MSG_CONTROLLER_CHANGE % 256 = MIDI_MSG_CONTROLLER_CHANGE := by decide
  rw [send_tremolo_eq, send_vibrato_eq, hpb, hcc, hv']
  by_cases c1 : b.ENABLE_VIBRATO = true ∧ r.ADC_vibrato_flag ≠ 0
  · by_cases c2 : b.ENABLE_TREMOLO = true ∧ r.ADC_tremolo_flag ≠ 0
    · simp only [if_pos c1, if_pos c2, ht']
      simp
    · simp only [if_pos c1, if_neg c2]
      refine ⟨by simp, fun h => ?_, fun _ => trivial⟩
      by_contra h0
      exact c2 ⟨h, h0⟩
  · by_cases c2 : b.ENABLE_TREMOLO = true ∧ r.ADC_tremolo_flag ≠ 0
    · simp only [if_neg c1, if_pos c2, ht']
      refine ⟨by simp, fun _ => trivial, fun h => ?_⟩
      by_contra h0
      exact c1 ⟨h, h0⟩
    · simp only [if_neg c1, if_neg c2]
      refine ⟨by simp, fun h => ?_, fun h => ?_⟩
      · by_contra h0
        exact c2 ⟨h, h0⟩
      · by_contra h0
        exact c1 ⟨h, h0⟩

theorem pot_messages_witness :
    (after_read_pots channel_1 hold pots_changed).ADC_vibrato < 256
      ∧ (after_read_pots channel_1 hold pots_changed).ADC_tremolo < 256
      ∧ (loop_pots channel_1 hold pots_changed).usart = [] ++ [0xE0, 0x00, 0x10] ++ [0xB0, 0x07, 0x20]
      ∧ (loop_pots channel_1 hold pots_changed).ADC_tremolo_flag = 0
      ∧ (loop_pots channel_1 hold pots_changed).ADC_vibrato_flag = 0 :=
  ⟨by decide, by decide,
    (pot_messages channel_1 hold pots_changed (by decide) (by decide)).1,
    (pot_messages channel_1 hold pots_changed (by decide) (by decide)).2.1 rfl,
    (pot_messages channel_1 hold pots_changed (by decide) (by decide)).2.2 rfl⟩

/-- C12 fails on the code: in a build with MIDI channel 1 and both
potentiometers enabled, an iteration in which both potentiometer flags are
raised and key 0 goes down sends the Note On status with the channel,
`0x90 | 1`, but the Pitch Bend and Control Change status bytes as
`MIDI_MSG_PITCH_BEND` and `MIDI_MSG_CONTROLLER_CHANGE` alone, which are not
`0xE0 | 1` and `0xB0 | 1`. -/
theorem pot_status_bytes_lack_channel :
    channel_1.MIDI_CHANNEL = 1
      ∧ (loop_pots channel_1 hold pots_changed).usart
        = [MIDI_MSG_PITCH_BEND, 0x00, 0x10, MIDI_MSG_CONTROLLER_CHANGE, 0x07, 0x20]
      ∧ MIDI_MSG_PITCH_BEND ≠ 0xE0 ||| channel_1.MIDI_CHANNEL
      ∧ MIDI_MSG_CONTROLLER_CHANGE ≠ 0xB0 ||| channel_1.MIDI_CHANNEL
      ∧ sent channel_1 (before_keys channel_1 hold pots_changed)
        = some [0x90 ||| channel_1.MIDI_CHANNEL, 96, 0x40]
      ∧ (midi_loop channel_1 hold pots_changed).map State.usart
        = some [0xE0, 0x00, 0x10, 0xB0, 0x07, 0x20, 0x91, 96, 0x40] := by
  decide

/-! ## main -/

theorem main_waiting_iff (s : State) :
    main_waiting s = true ↔ key_flag s.keys_0 0 = false ∧ key_flag s.keys_0 1 = false := by
  unfold main_waiting
  rw [← mask_0, ← mask_1]
  cases h0 : (s.keys_0 &&& KEY_0_MSK == 0) <;> cases h1 : (s.keys_0 &&& KEY_1_MSK == 0) <;>
    simp_all [bne]

theorem main_switch_eq (s : State) :
    main_switch s
      = if key_flag s.keys_0 0 = true then Started.analog_behaviour
        else if key_flag s.keys_0 1 = true then Started.midi_behaviour
        else Started.returns := by
  unfold main_switch
  rw [mask_0, mask_1]

theorem main_wait_exit (e : Extern) :
    ∀ (k : Nat) (s : State) (fuel : Nat),
      (∀ i, i < k → main_waiting (Nat.iterate e.read_buttons i s) = true) →
      main_waiting (Nat.iterate e.read_buttons k s) = false → k < fuel →
      main_wait e fuel s = some (Nat.iterate e.read_buttons k s) := by
  intro k
  induction k with
  | zero =>
    intro s fuel _ hk hf
    obtain ⟨n, rfl⟩ : ∃ n, fuel = n + 1 := ⟨fuel - 1, by omega⟩
    have hk' : main_waiting s = false := hk
    simp [main_wait, hk']
  | succ k ih =>
    intro s fuel hw hk hf
    obtain ⟨n, rfl⟩ : ∃ n, fuel = n + 1 := ⟨fuel - 1, by omega⟩
    have h0 : main_waiting s = true := hw 0 (by omega)
    rw [main_wait, if_pos h0]
    rw [Function.iterate_succ_apply] at hk ⊢
    apply ih (e.read_buttons s) n _ hk (by omega)
    intro i hi
    have := hw (i + 1) (by omega)
    rwa [Function.iterate_succ_apply] at this

theorem main_wait_none (e : Extern) :
    ∀ (fuel : Nat) (s : State),
      (∀ i, i < fuel → main_waiting (Nat.iterate e.read_buttons i s) = true) →
      main_wait e fuel s = none := by
  intro fuel
  induction fuel with
  | zero => intro s _; rfl
  | succ n ih =>
    intro s hw
    have h0 : main_waiting s = true := hw 0 (by omega)
    rw [main_wait, if_pos h0]
    apply ih
    intro i hi
    have := hw (i + 1) (by omega)
    rwa [Function.iterate_succ_apply] at this

/-- C13: the wait loop of `main` goes on exactly while the key-0 flag and the
key-1 flag of `keys_0` are both clear, calling `read_buttons` each time.  If
they are clear in the first `k` samples and not in the next one, `main` (with
fuel for more than `k` tests) starts exactly one run mode, chosen by that
sample: `analog_behaviour` when its key-0 flag is set, whatever the key-1
flag, and `midi_behaviour` when its key-0 flag is clear, the key-1 flag being
set then.  As long as both flags are clear in every sample, no mode is
started; `main` never reaches its `return`. -/
theorem main_starts_one_mode (e : Extern) :
    (∀ s, main_waiting s = true ↔ key_flag s.keys_0 0 = false ∧ key_flag s.keys_0 1 = false)
      ∧ (∀ (k : Nat) (s : State) (fuel : Nat),
          (∀ i, i < k → main_waiting (Nat.iterate e.read_buttons i s) = true) →
          main_waiting (Nat.iterate e.read_buttons k s) = false → k < fuel →
          main e fuel s
              = some (if key_flag (Nat.iterate e.read_buttons k s).keys_0 0 = true
                  then Started.analog_behaviour else Started.midi_behaviour)
            ∧ (key_flag (Nat.iterate e.read_buttons k s).keys_0 0 = false →
                key_flag (Nat.iterate e.read_buttons k s).keys_0 1 = true))
      ∧ (∀ (fuel : Nat) (s : State),
          (∀ i, i < fuel → main_waiting (Nat.iterate e.read_buttons i s) = true) →
          main e fuel s = none)
      ∧ (∀ (fuel : Nat) (s : State), main e fuel s ≠ some Started.returns) := by
  refine ⟨main_waiting_iff, ?_, ?_, ?_⟩
  · intro k s fuel hw hk hf
    have hx : ¬ (key_flag (Nat.iterate e.read_buttons k s).keys_0 0 = false
        ∧ key_flag (Nat.iterate e.read_buttons k s).keys_0 1 = false) := by
      rw [← main_waiting_iff, hk]
      exact Bool.false_ne_true
    have h1 : key_flag (Nat.iterate e.read_buttons k s).keys_0 0 = false →
        key_flag (Nat.iterate e.read_buttons k s).keys_0 1 = true := by
      intro h0
      cases h : key_flag (Nat.iterate e.read_buttons k s).keys_0 1
      · exact absurd ⟨h0, h⟩ hx
      · rfl
    refine ⟨?_, h1⟩
    unfold main
    rw [main_wait_exit e k s fuel hw hk hf, Option.map_some', main_switch_eq]
    cases h0 : key_flag (Nat.iterate e.read_buttons k s).keys_0 0
    · simp [h1 h0]
    · simp
  · intro fuel s hw
    unfold main
    rw [main_wait_none e fuel s hw]
    rfl
  · intro fuel
    induction fuel with
    | zero => intro s h; simp [main, main_wait] at h
    | succ n ih =>
      intro s h
      unfold main at h ih
      rw [main_wait] at h
      by_cases hw : main_waiting s = true
      · rw [if_pos hw] at h
        exact ih _ h
      · rw [if_neg hw, Option.map_some', main_switch_eq] at h
        have hx : ¬ (key_flag s.keys_0 0 = false ∧ key_flag s.keys_0 1 = false) := by
          rw [← main_waiting_iff]; exact hw
        cases h0 : key_flag s.keys_0 0 <;> cases h1 : key_flag s.keys_0 1 <;>
          simp_all

theorem main_starts_one_mode_witness :
    main press_key_0 2 (idle 36) = some Started.analog_behaviour
      ∧ main press_key_1 2 (idle 36) = some Started.midi_behaviour
      ∧ main hold 5 (idle 36) = none :=
  ⟨((main_starts_one_mode press_key_0).2.1 1 (idle 36) 2 (by decide) (by decide)
      (by decide)).1,
    ((main_starts_one_mode press_key_1).2.1 1 (idle 36) 2 (by decide) (by decide)
      (by decide)).1,
    (main_starts_one_mode hold).2.2.1 5 (idle 36) (by decide)⟩

/-- C14 fails on the code: with `KEYS_NUMBER = 36` the group `keys_36` is
compiled in, so with `pitch_0 = MAX_PITCH_0 = 72` a Press of key 36 queues the
note `MIDI_C0 + 72 + 36`, and that note minus `MIDI_C0` is 108, above
`NOTE_NUMBER - 1 = 107`. -/
theorem note_number_exceeded :
    top_pitch_key_36_down.pitch_0 = (MAX_PITCH_0 configured.KEYS_NUMBER : Nat)
      ∧ MAX_PITCH_0 configured.KEYS_NUMBER = 72
      ∧ queued_ON (fill_queues configured top_pitch_key_36_down) = [60 + 72 + 36]
      ∧ sent configured top_pitch_key_36_down = some [0x90, 60 + 72 + 36, 0x40]
      ∧ ¬ (60 + 72 + 36 - configured.MIDI_C0 ≤ NOTE_NUMBER - 1) := by
  decide

/-! ## The settings -/

theorem clamped_add_range (keysNumber : Nat) (pitch delta : Int) :
    0 ≤ clamped_add keysNumber pitch delta
      ∧ clamped_add keysNumber pitch delta ≤ MAX_PITCH_0 keysNumber := by
  unfold clamped_add
  have h : (0 : Int) ≤ MAX_PITCH_0 keysNumber := Int.ofNat_nonneg _
  split
  · exact ⟨le_refl _, h⟩
  · split
    · exact ⟨h, le_refl _⟩
    · constructor <;> omega

theorem apply_settings_range (keysNumber : Nat) (events : List SettingsEvent) :
    ∀ pitch : Int, 0 ≤ pitch → pitch ≤ MAX_PITCH_0 keysNumber →
      0 ≤ apply_settings keysNumber pitch events
        ∧ apply_settings keysNumber pitch events ≤ MAX_PITCH_0 keysNumber := by
  induction events with
  | nil => intro pitch h0 h1; exact ⟨h0, h1⟩
  | cons ev evs ih =>
    intro pitch _ _
    have h := clamped_add_range keysNumber pitch ev.delta
    exact ih _ h.1 h.2

/-- C15: in the model of `process_settings` that the spec describes, for
every number of keys, every start value of `pitch_0` within
`[0, MAX_PITCH_0]` and every sequence of octave and semitone events,
`pitch_0` is within `[0, MAX_PITCH_0]` after every step (that is, after every
initial part of the sequence); in particular from `DEFAULT_PITCH_0` with the
36 keys of keyboard.h.  A shift that stays in the range is applied as it is,
a shift below 0 gives 0 and a shift above `MAX_PITCH_0` gives `MAX_PITCH_0`;
octave-down at `pitch_0 = 0` gives 0. -/
theorem pitch_0_stays_in_range :
    (∀ (keysNumber : Nat) (pitch : Int) (events : List SettingsEvent) (k : Nat),
        0 ≤ pitch → pitch ≤ MAX_PITCH_0 keysNumber →
        0 ≤ apply_settings keysNumber pitch (events.take k)
          ∧ apply_settings keysNumber pitch (events.take k) ≤ MAX_PITCH_0 keysNumber)
      ∧ (∀ (events : List SettingsEvent) (k : Nat),
        0 ≤ apply_settings KEYS_NUMBER DEFAULT_PITCH_0 (events.take k)
          ∧ apply_settings KEYS_NUMBER DEFAULT_PITCH_0 (events.take k) ≤ 72)
      ∧ (∀ (keysNumber : Nat) (pitch : Int) (ev : SettingsEvent),
        (0 ≤ pitch + ev.delta → pitch + ev.delta ≤ MAX_PITCH_0 keysNumber →
          clamped_add keysNumber pitch ev.delta = pitch + ev.delta)
        ∧ (pitch + ev.delta < 0 → clamped_add keysNumber pitch ev.delta = 0)
        ∧ (pitch + ev.delta > MAX_PITCH_0 keysNumber →
          clamped_add keysNumber pitch ev.delta = MAX_PITCH_0 keysNumber))
      ∧ (∀ keysNumber : Nat,
        clamped_add keysNumber 0 SettingsEvent.octave_down.delta = 0) := by
  refine ⟨?_, ?_, ?_, ?_⟩
  · intro keysNumber pitch events k h0 h1
    exact apply_settings_range keysNumber (events.take k) pitch h0 h1
  · intro events k
    exact apply_settings_range KEYS_NUMBER (events.take k) DEFAULT_PITCH_0 (by decide) (by decide)
  · intro keysNumber pitch ev
    have h : (0 : Int) ≤ MAX_PITCH_0 keysNumber := Int.ofNat_nonneg _
    unfold clamped_add
    refine ⟨fun h0 h1 => ?_, fun h0 => ?_, fun h1 => ?_⟩
    · rw [if_neg (by omega), if_neg (by omega)]
    · rw [if_pos h0]
    · rw [if_neg (by omega), if_pos h1]
  · intro keysNumber
    unfold clamped_add
    rw [if_pos (by decide)]

theorem pitch_0_stays_in_range_witness :
    (0 ≤ apply_settings KEYS_NUMBER 36
          ([SettingsEvent.octave_down, SettingsEvent.octave_down, SettingsEvent.octave_down,
            SettingsEvent.octave_down, SettingsEvent.semitone_down].take 5)
        ∧ apply_settings KEYS_NUMBER 36
          ([SettingsEvent.octave_down, SettingsEvent.octave_down, SettingsEvent.octave_down,
            SettingsEvent.octave_down, SettingsEvent.semitone_down].take 5)
          ≤ MAX_PITCH_0 KEYS_NUMBER)
      ∧ clamped_add KEYS_NUMBER 70 SettingsEvent.octave_up.delta = MAX_PITCH_0 KEYS_NUMBER :=
  ⟨pitch_0_stays_in_range.1 KEYS_NUMBER 36 _ 5 (by decide) (by decide),
    (pitch_0_stays_in_range.2.2.1 KEYS_NUMBER 70 SettingsEvent.octave_up).2.2 (by decide)⟩

/-! ## The voice table -/

theorem max_voices_eq : MAX_VOICES = 8 := by decide

theorem voice_press_full (voices : List Nat) (note : Nat) (h : voices.length = MAX_VOICES) :
    voice_press voices note = voices := by
  unfold voice_press
  split
  · rfl
  · rw [if_neg (by omega)]

theorem voice_press_length (voices : List Nat) (note : Nat) (h : voices.length ≤ MAX_VOICES) :
    (voice_press voices note).length ≤ MAX_VOICES := by
  unfold voice_press
  split
  · exact h
  · split
    · rw [List.length_append, List.length_singleton]; omega
    · exact h

theorem foldl_voice_press_length (notes : List Nat) :
    ∀ voices : List Nat, voices.length ≤ MAX_VOICES →
      (notes.foldl voice_press voices).length ≤ MAX_VOICES := by
  induction notes with
  | nil => intro voices h; exact h
  | cons n ns ih =>
    intro voices h
    exact ih _ (voice_press_length voices n h)

theorem foldl_voice_press_take (notes : List Nat) :
    ∀ voices : List Nat, (voices ++ notes).Nodup → voices.length ≤ MAX_VOICES →
      notes.foldl voice_press voices = (voices ++ notes).take MAX_VOICES := by
  induction notes with
  | nil =>
    intro voices _ h
    rw [List.append_nil, List.foldl_nil, List.take_of_length_le h]
  | cons n ns ih =>
    intro voices hnd h
    have hn : n ∉ voices := by
      intro hmem
      have := List.nodup_append.mp hnd
      exact this.2.2 hmem (List.mem_cons_self n ns)
    rw [List.foldl_cons]
    by_cases hl : voices.length < MAX_VOICES
    · have hp : voice_press voices n = voices ++ [n] := by
        unfold voice_press
        rw [if_neg hn, if_pos hl]
      have hnd' : (voices ++ [n] ++ ns).Nodup := by
        rw [List.append_assoc]; exact hnd
      rw [hp, ih (voices ++ [n]) hnd'
        (by rw [List.length_append, List.length_singleton]; omega), List.append_assoc]
      rfl
    · have hp : voice_press voices n = voices := by
        unfold voice_press
        rw [if_neg hn, if_neg hl]
      have hfull : voices.length = MAX_VOICES := by omega
      have hnd' : (voices ++ ns).Nodup := by
        apply List.Nodup.sublist _ hnd
        exact List.Sublist.append_left (List.sublist_cons_self n ns) voices
      rw [hp, ih voices hnd' h, List.take_append_of_le_length (by omega),
        List.take_append_of_le_length (by omega)]

/-- C16: the maximum number of simultaneous voices, `TIMER_ARR / PWM_NOTE_AMP`,
is `384 / 48 = 8` with no remainder.  In the model of the voice table that the
spec describes, pressing more than 8 distinct notes at once from silence
leaves exactly 8 voices Sounding, those of the first 8 notes; a Press on a
full table leaves the table as it is (the function is total: no error), and
the table never holds more than 8 voices. -/
theorem voice_capacity :
    TIMER_ARR / PWM_NOTE_AMP = 8 ∧ TIMER_ARR % PWM_NOTE_AMP = 0 ∧ MAX_VOICES = 8
      ∧ (∀ notes : List Nat, notes.Nodup → 8 < notes.length →
          (notes.foldl voice_press []).length = 8
            ∧ notes.foldl voice_press [] = notes.take 8)
      ∧ (∀ (voices : List Nat) (note : Nat), voices.length = 8 →
          voice_press voices note = voices)
      ∧ (∀ (voices notes : List Nat), voices.length ≤ 8 →
          (notes.foldl voice_press voices).length ≤ 8) := by
  refine ⟨by decide, by decide, max_voices_eq, ?_, ?_, ?_⟩
  · intro notes hnd hlen
    have h := foldl_voice_press_take notes [] (by simpa using hnd)
      (by rw [max_voices_eq]; exact Nat.zero_le _)
    rw [List.nil_append, max_voices_eq] at h
    rw [h]
    exact ⟨by rw [List.length_take]; omega, rfl⟩
  · intro voices note h
    exact voice_press_full voices note (by rw [max_voices_eq]; exact h)
  · intro voices notes h
    have := foldl_voice_press_length notes voices (by rw [max_voices_eq]; exact h)
    rwa [max_voices_eq] at this

theorem voice_capacity_witness :
    ([60, 62, 64, 65, 67, 69, 71, 72, 74, 76].foldl voice_press []).length = 8
      ∧ [60, 62, 64, 65, 67, 69, 71, 72, 74, 76].foldl voice_press []
        = [60, 62, 64, 65, 67, 69, 71, 72]
      ∧ voice_press [60, 62, 64, 65, 67, 69, 71, 72] 74 = [60, 62, 64, 65, 67, 69, 71, 72] :=
  ⟨(voice_capacity.2.2.2.1 [60, 62, 64, 65, 67, 69, 71, 72, 74, 76] (by decide) (by decide)).1,
    (voice_capacity.2.2.2.1 [60, 62, 64, 65, 67, 69, 71, 72, 74, 76] (by decide) (by decide)).2,
    voice_capacity.2.2.2.2.1 [60, 62, 64, 65, 67, 69, 71, 72] 74 rfl⟩

/-! ## analog_behaviour.h -/

/-- C19: with `TIMER_ARR = 384` and `ATMEGA_FREQUENCY = 16000000` the exact
sample period `TIMER_ARR * 1000000 / ATMEGA_FREQUENCY` is a whole number of
microseconds, 24, and `SAMPLE_TIME`, computed with truncating divisions as
`1000000 / (16000000 / 384)`, is 24 as well (`SAMPLE_FREQUENCY` being
truncated to 41666). -/
theorem sample_time_exact :
    TIMER_ARR = 384 ∧ ATMEGA_FREQUENCY = 16000000
      ∧ TIMER_ARR * 1000000 % ATMEGA_FREQUENCY = 0
      ∧ TIMER_ARR * 1000000 / ATMEGA_FREQUENCY = 24
      ∧ SAMPLE_FREQUENCY = 41666
      ∧ SAMPLE_TIME = 1000000 / (16000000 / 384)
      ∧ SAMPLE_TIME = 24 := by
  decide

/-- C20, as stated, fails: `PWM_MIN` is 24, and the middle `TIMER_ARR / 2` of
the duty range is 192. -/
theorem PWM_MIN_not_mid_range :
    PWM_MIN = 24 ∧ TIMER_ARR / 2 = 192 ∧ ¬ (PWM_MIN = TIMER_ARR / 2) := by
  decide

/-- C20, amended: `PWM_MIN` is half the amplitude of one note,
`PWM_NOTE_AMP / 2`, that is `TIMER_ARR / 16 = 24`, the amplitude of one note
being `TIMER_ARR / 8 = 48`. -/
theorem PWM_MIN_half_note_amplitude :
    PWM_MIN = PWM_NOTE_AMP / 2 ∧ PWM_NOTE_AMP = TIMER_ARR / 8 ∧ PWM_NOTE_AMP = 48
      ∧ PWM_MIN = TIMER_ARR / 16 ∧ PWM_MIN = 24 := by
  decide

/-! ## Keys that are held -/

theorem sent_nil_of_unchanged (b : Build) (s : State)
    (h : ∀ j, j < 48 → handled b j = true → key_byte s j = key_byte_last s j) :
    sent b s = some [] := by
  have hp : pressed_keys b s = [] := by
    apply filter_range_none
    intro j hj
    cases hh : handled b j
    · rfl
    · simp [is_press, h j hj hh]
  have hr : released_keys b s = [] := by
    apply filter_range_none
    intro j hj
    cases hh : handled b j
    · rfl
    · simp [is_release, h j hj hh]
  have hb : in_bounds b s = true :=
    in_bounds_of_lists b s [] [] hp hr (Nat.zero_le _) (Nat.zero_le _)
  rw [sent_eq, if_pos hb, hp, hr]
  rfl

theorem midi_loop_last (b : Build) (e : Extern) (s r : State) (j : Nat)
    (hr : midi_loop b e s = some r) (hj : handled b j = true) :
    key_byte_last r j = key_byte (before_keys b e s) j := by
  obtain ⟨bytes, _, rfl⟩ := midi_loop_result b e s r hr
  rw [(keep_keys_spec b _).1 j hj]
  rfl

theorem midi_loop_in_bounds (b : Build) (e : Extern) (s r : State)
    (hr : midi_loop b e s = some r) : in_bounds b (before_keys b e s) = true := by
  rw [← midi_loop_isSome, hr]
  rfl

theorem sent_in_bounds (b : Build) (s : State) (hb : in_bounds b s = true) :
    sent b s
      = some (frame ((MIDI_MSG_NOTE_ON ||| b.MIDI_CHANNEL) % 256)
          ((pressed_keys b s).map (note_of b s)) ((released_keys b s).map (note_of b s))) := by
  rw [sent_eq, if_pos hb]

theorem call_states_held (b : Build) (j : Nat) (hj : handled b j = true) (es : List Extern) :
    ∀ r : State, key_flag (key_byte_last r j) (j % 6) = true → key_held b j es r = true →
      ∃ cs, call_states b es r = some cs ∧ cs.length = es.length
        ∧ ∀ c ∈ cs, j ∉ pressed_keys b c ∧ j ∉ released_keys b c ∧ in_bounds b c = true := by
  induction es with
  | nil =>
    intro r _ _
    exact ⟨[], rfl, rfl, fun c hc => absurd hc (List.not_mem_nil c)⟩
  | cons e es ih =>
    intro r hlast h
    rw [key_held, Bool.and_eq_true, Bool.and_eq_true, beq_iff_eq] at h
    obtain ⟨⟨hcur, hkeep⟩, hrest⟩ := h
    cases hm : midi_loop b e r with
    | none => rw [hm] at hrest; exact absurd hrest Bool.false_ne_true
    | some r1 =>
      rw [hm] at hrest
      have hl1 : key_flag (key_byte_last r1 j) (j % 6) = true := by
        rw [midi_loop_last b e r r1 j hm hj]
        exact hcur
      obtain ⟨cs, hcs, hlen, hall⟩ := ih r1 hl1 hrest
      refine ⟨before_keys b e r :: cs, ?_, ?_, ?_⟩
      · rw [call_states, hm]
        simp only [hcs, Option.map_some']
      · rw [List.length_cons, List.length_cons, hlen]
      · intro c hc
        rcases List.mem_cons.mp hc with rfl | hc
        · refine ⟨?_, ?_, midi_loop_in_bounds b e r r1 hm⟩
          · rw [mem_pressed_keys]
            intro hp
            have := hp.2
            rw [is_press, hkeep, hlast, hcur] at this
            exact absurd this (by decide)
          · rw [mem_released_keys]
            intro hp
            have := hp.2
            rw [is_release, hkeep, hlast, hcur] at this
            exact absurd this (by decide)
        · exact hall c hc

theorem pressed_keys_count (b : Build) (s : State) (j : Nat) (h : j ∈ pressed_keys b s) :
    (pressed_keys b s).count j = 1
      ∧ ((pressed_keys b s).map (note_of b s)).count (note_of b s j) = 1 := by
  have hn : (pressed_keys b s).Nodup :=
    List.Pairwise.imp (fun hlt => Nat.ne_of_lt hlt) (pressed_keys_sorted b s)
  have hm : ((pressed_keys b s).map (note_of b s)).Nodup := by
    apply List.Nodup.map_on _ hn
    intro x hx y hy hxy
    exact note_of_injective b s x y (List.mem_range.mp (List.mem_filter.mp hx).1)
      (List.mem_range.mp (List.mem_filter.mp hy).1) hxy
  exact ⟨List.count_eq_one_of_mem hn h,
    List.count_eq_one_of_mem hm (List.mem_map_of_mem _ h)⟩

/-- C18: (1) when an iteration of the `midi_behaviour` loop is followed by one
that samples the same key-group bytes, the previous bytes being left as the
loop stored them by `read_pots`, `read_buttons` and `process_settings`,
`process_keys_MIDI` sends no byte in the second iteration.  (2) When key `j`
goes down in an iteration and is held through any number of following
iterations, whatever the other keys do: the call of the first iteration sends
the frame of the keys that moved, in which key `j` is one Press, exactly once,
and its note is the note of exactly one `(note, 0x40)` pair; in each following
iteration the call sends the frame of the keys that moved in it, and key `j`
is neither among its Presses nor among its Releases. -/
theorem held_key_sends_one_pair (b : Build) :
    (∀ (e1 e2 : Extern) (s r : State), midi_loop b e1 s = some r →
        (∀ j, j < 48 → handled b j = true →
          key_byte (before_keys b e2 r) j = key_byte (before_keys b e1 s) j
            ∧ key_byte_last (before_keys b e2 r) j = key_byte_last r j) →
        sent b (before_keys b e2 r) = some []
          ∧ (midi_loop b e2 r).map State.usart = some (before_keys b e2 r).usart)
      ∧ (∀ (e0 : Extern) (es : List Extern) (s0 r0 : State) (j : Nat),
          midi_loop b e0 s0 = some r0 →
          j ∈ pressed_keys b (before_keys b e0 s0) →
          key_held b j es r0 = true →
          sent b (before_keys b e0 s0)
              = some (frame ((MIDI_MSG_NOTE_ON ||| b.MIDI_CHANNEL) % 256)
                  ((pressed_keys b (before_keys b e0 s0)).map (note_of b (before_keys b e0 s0)))
                  ((released_keys b (before_keys b e0 s0)).map
                    (note_of b (before_keys b e0 s0))))
            ∧ (pressed_keys b (before_keys b e0 s0)).count j = 1
            ∧ ((pressed_keys b (before_keys b e0 s0)).map
                (note_of b (before_keys b e0 s0))).count (note_of b (before_keys b e0 s0) j) = 1
            ∧ ∃ cs, call_states b es r0 = some cs ∧ cs.length = es.length
                ∧ ∀ c ∈ cs, j ∉ pressed_keys b c ∧ j ∉ released_keys b c
                    ∧ sent b c
                      = some (frame ((MIDI_MSG_NOTE_ON ||| b.MIDI_CHANNEL) % 256)
                          ((pressed_keys b c).map (note_of b c))
                          ((released_keys b c).map (note_of b c)))) := by
  constructor
  · intro e1 e2 s r hr hsame
    have hs : sent b (before_keys b e2 r) = some [] := by
      apply sent_nil_of_unchanged
      intro j hj hh
      rw [(hsame j hj hh).1, (hsame j hj hh).2, midi_loop_last b e1 s r j hr hh]
    refine ⟨hs, ?_⟩
    rw [midi_loop_eq, hs]
    simp only [Option.map_some', keep_keys_usart, List.append_nil]
  · intro e0 es s0 r0 j hr hd hheld
    have hj : handled b j = true := ((mem_pressed_keys b _ j).mp hd).1
    have hflag : key_flag (key_byte_last r0 j) (j % 6) = true := by
      rw [midi_loop_last b e0 s0 r0 j hr hj]
      have := ((mem_pressed_keys b _ j).mp hd).2
      rw [is_press, Bool.and_eq_true] at this
      exact this.1
    obtain ⟨cs, hcs, hlen, hall⟩ := call_states_held b j hj es r0 hflag hheld
    obtain ⟨k1, k2⟩ := pressed_keys_count b (before_keys b e0 s0) j hd
    refine ⟨sent_in_bounds b _ (midi_loop_in_bounds b e0 s0 r0 hr), k1, k2, cs, hcs, hlen, ?_⟩
    intro c hc
    obtain ⟨a1, a2, a3⟩ := hall c hc
    exact ⟨a1, a2, sent_in_bounds b c a3⟩

theorem held_key_sends_one_pair_witness :
    (midi_loop configured press_key_0 (idle 36) = some key_0_held
        ∧ sent configured (before_keys configured press_key_0 key_0_held) = some [])
      ∧ (0 ∈ pressed_keys configured (before_keys configured press_key_0 (idle 36))
        ∧ key_held configured 0 [press_key_7, release_key_7, press_key_0] key_0_held = true
        ∧ keys_trace configured [press_key_0, press_key_7, release_key_7, press_key_0] (idle 36)
          = some [[0x90, 96, 0x40], [0x90, 103, 0x40], [0x90, 103, 0x00], []]
        ∧ (pressed_keys configured (before_keys configured press_key_0 (idle 36))).count 0 = 1) :=
  ⟨⟨by decide,
      ((held_key_sends_one_pair configured).1 press_key_0 press_key_0 (idle 36) key_0_held
        (by decide) (by decide)).1⟩,
    by decide, by decide, by decide,
    ((held_key_sends_one_pair configured).2 press_key_0 [press_key_7, release_key_7, press_key_0]
      (idle 36) key_0_held 0 (by decide) (by decide) (by decide)).2.1⟩

/-! ## The low-order bits of the key bytes -/

theorem key_flag_of_mask (x y k : Nat) (hk : k < 6)
    (h : x &&& KEYS_RELEVANT_MSK = y &&& KEYS_RELEVANT_MSK) : key_flag x k = key_flag y k := by
  have hm : KEYS_RELEVANT_MSK.testBit (k + 2) = true := by
    interval_cases k <;> decide
  have hx := Nat.testBit_and x KEYS_RELEVANT_MSK (k + 2)
  have hy := Nat.testBit_and y KEYS_RELEVANT_MSK (k + 2)
  rw [hm, Bool.and_true] at hx hy
  unfold key_flag
  rw [← hx, ← hy, h]

theorem key_block_self (c msk note : Nat) (l : Locals) : key_block c c msk note l = l := by
  unfold key_block
  generalize (c &&& msk != 0) = x
  cases x <;> rfl

theorem key_block_congr (c p c1 p1 k msk note : Nat) (l : Locals)
    (hm : ∀ x, (x &&& msk != 0) = key_flag x k)
    (hc : key_flag c k = key_flag c1 k) (hp : key_flag p k = key_flag p1 k) :
    key_block c p msk note l = key_block c1 p1 msk note l := by
  unfold key_block
  rw [hm c, hm p, hm c1, hm p1, hc, hp]

/-- The guard `keys_g != keys_g_last` of a group block only saves time: without
it the six key blocks do the same. -/
theorem group_block_unguarded (c p c0 cp g : Nat) (l : Locals) :
    group_block c p c0 cp g l
      = key_block c p KEY_5_MSK (c0 + cp + (g + 5))
          (key_block c p KEY_4_MSK (c0 + cp + (g + 4))
            (key_block c p KEY_3_MSK (c0 + cp + (g + 3))
              (key_block c p KEY_2_MSK (c0 + cp + (g + 2))
                (key_block c p KEY_1_MSK (c0 + cp + (g + 1))
                  (key_block c p KEY_0_MSK (c0 + cp + (g + 0)) l))))) := by
  unfold group_block
  by_cases h : c = p
  · subst h
    simp only [bne_self_eq_false, key_block_self]
    rfl
  · have hne : (c != p) = true := by simpa using h
    rw [if_pos hne]

theorem group_block_congr (c p c1 p1 c0 cp g : Nat) (l : Locals)
    (hc : ∀ k, k < 6 → key_flag c k = key_flag c1 k)
    (hp : ∀ k, k < 6 → key_flag p k = key_flag p1 k) :
    group_block c p c0 cp g l = group_block c1 p1 c0 cp g l := by
  rw [group_block_unguarded, group_block_unguarded,
    key_block_congr c p c1 p1 0 KEY_0_MSK _ _ mask_0 (hc 0 (by decide)) (hp 0 (by decide)),
    key_block_congr c p c1 p1 1 KEY_1_MSK _ _ mask_1 (hc 1 (by decide)) (hp 1 (by decide)),
    key_block_congr c p c1 p1 2 KEY_2_MSK _ _ mask_2 (hc 2 (by decide)) (hp 2 (by decide)),
    key_block_congr c p c1 p1 3 KEY_3_MSK _ _ mask_3 (hc 3 (by decide)) (hp 3 (by decide)),
    key_block_congr c p c1 p1 4 KEY_4_MSK _ _ mask_4 (hc 4 (by decide)) (hp 4 (by decide)),
    key_block_congr c p c1 p1 5 KEY_5_MSK _ _ mask_5 (hc 5 (by decide)) (hp 5 (by decide))]

theorem key_byte_group (s : State) (q k : Nat) (hk : k < 6) :
    key_byte s (6 * q + k) = key_byte s (6 * q)
      ∧ key_byte_last s (6 * q + k) = key_byte_last s (6 * q) := by
  unfold key_byte key_byte_last
  have e1 : (6 * q + k) / 6 = q := by omega
  have e2 : 6 * q / 6 = q := by omega
  rw [e1, e2]
  exact ⟨rfl, rfl⟩

/-- The local variables that `process_keys_MIDI` fills depend on the key bytes
through their six key flags only. -/
theorem fill_queues_congr (b : Build) (s t : State) (hp : s.pitch_0 = t.pitch_0)
    (hc : ∀ j, j < 48 → key_flag (key_byte s j) (j % 6) = key_flag (key_byte t j) (j % 6))
    (hl : ∀ j, j < 48 →
      key_flag (key_byte_last s j) (j % 6) = key_flag (key_byte_last t j) (j % 6)) :
    fill_queues b s = fill_queues b t := by
  have fc : ∀ q k, q < 8 → k < 6 →
      key_flag (key_byte s (6 * q)) k = key_flag (key_byte t (6 * q)) k := by
    intro q k hq hk
    have h := hc (6 * q + k) (by omega)
    rw [(key_byte_group s q k hk).1, (key_byte_group t q k hk).1,
      (by omega : (6 * q + k) % 6 = k)] at h
    exact h
  have fl : ∀ q k, q < 8 → k < 6 →
      key_flag (key_byte_last s (6 * q)) k = key_flag (key_byte_last t (6 * q)) k := by
    intro q k hq hk
    have h := hl (6 * q + k) (by omega)
    rw [(key_byte_group s q k hk).2, (key_byte_group t q k hk).2,
      (by omega : (6 * q + k) % 6 = k)] at h
    exact h
  have hcp : current_pitch_0 s = current_pitch_0 t := by
    unfold current_pitch_0
    rw [hp]
  unfold fill_queues
  simp only []
  rw [hcp,
    group_block_congr s.keys_0 s.keys_0_last t.keys_0 t.keys_0_last _ _ 0 _
      (fun k hk => fc 0 k (by decide) hk) (fun k hk => fl 0 k (by decide) hk),
    group_block_congr s.keys_6 s.keys_6_last t.keys_6 t.keys_6_last _ _ 6 _
      (fun k hk => fc 1 k (by decide) hk) (fun k hk => fl 1 k (by decide) hk),
    group_block_congr s.keys_12 s.keys_12_last t.keys_12 t.keys_12_last _ _ 12 _
      (fun k hk => fc 2 k (by decide) hk) (fun k hk => fl 2 k (by decide) hk),
    group_block_congr s.keys_18 s.keys_18_last t.keys_18 t.keys_18_last _ _ 18 _
      (fun k hk => fc 3 k (by decide) hk) (fun k hk => fl 3 k (by decide) hk),
    group_block_congr s.keys_24 s.keys_24_last t.keys_24 t.keys_24_last _ _ 24 _
      (fun k hk => fc 4 k (by decide) hk) (fun k hk => fl 4 k (by decide) hk),
    group_block_congr s.keys_30 s.keys_30_last t.keys_30 t.keys_30_last _ _ 30 _
      (fun k hk => fc 5 k (by decide) hk) (fun k hk => fl 5 k (by decide) hk),
    group_block_congr s.keys_36 s.keys_36_last t.keys_36 t.keys_36_last _ _ 36 _
      (fun k hk => fc 6 k (by decide) hk) (fun k hk => fl 6 k (by decide) hk),
    group_block_congr s.keys_42 s.keys_42_last t.keys_42 t.keys_42_last _ _ 42 _
      (fun k hk => fc 7 k (by decide) hk) (fun k hk => fl 7 k (by decide) hk)]

theorem note_of_congr (b : Build) (s t : State) (hp : s.pitch_0 = t.pitch_0) (j : Nat) :
    note_of b s j = note_of b t j := by
  unfold note_of current_pitch_0
  rw [hp]

/-- C21: two states that have the same `pitch_0` and, for every key-group
byte and every previous byte, the same value of `byte & KEYS_RELEVANT_MSK`
(`0xFC`, the six key flags) make `process_keys_MIDI` write the same notes at
the same indices of its queues and send the same bytes, whatever their two
low-order bits and what the serial stream held before. -/
theorem low_bits_are_ignored (b : Build) (s t : State)
    (hp : s.pitch_0 = t.pitch_0)
    (hc : ∀ j, j < 48 →
      key_byte s j &&& KEYS_RELEVANT_MSK = key_byte t j &&& KEYS_RELEVANT_MSK)
    (hl : ∀ j, j < 48 →
      key_byte_last s j &&& KEYS_RELEVANT_MSK = key_byte_last t j &&& KEYS_RELEVANT_MSK) :
    fill_queues b s = fill_queues b t ∧ sent b s = sent b t := by
  have hk : ∀ j, j < 48 → key_flag (key_byte s j) (j % 6) = key_flag (key_byte t j) (j % 6) :=
    fun j hj => key_flag_of_mask _ _ _ (Nat.mod_lt _ (by decide)) (hc j hj)
  have hkl : ∀ j, j < 48 →
      key_flag (key_byte_last s j) (j % 6) = key_flag (key_byte_last t j) (j % 6) :=
    fun j hj => key_flag_of_mask _ _ _ (Nat.mod_lt _ (by decide)) (hl j hj)
  have hpk : pressed_keys b s = pressed_keys b t := by
    apply List.filter_congr
    intro j hj
    have hj' := List.mem_range.mp hj
    simp only [is_press, hk j hj', hkl j hj']
  have hrk : released_keys b s = released_keys b t := by
    apply List.filter_congr
    intro j hj
    have hj' := List.mem_range.mp hj
    simp only [is_release, hk j hj', hkl j hj']
  have hn : note_of b s = note_of b t := funext (note_of_congr b s t hp)
  refine ⟨fill_queues_congr b s t hp hk hkl, ?_⟩
  rw [sent_eq, sent_eq, in_bounds, in_bounds, hpk, hrk, hn]

theorem low_bits_are_ignored_witness :
    sent configured key_0_down_low_bits = sent configured key_0_down
      ∧ sent configured key_0_down = some [0x90, 96, 0x40] :=
  ⟨(low_bits_are_ignored configured key_0_down_low_bits key_0_down rfl (by decide)
      (by decide)).2,
    by decide⟩

/-! ## The note byte -/

/-- C22, as stated, fails: with `MIDI_C0 = 60` and `pitch_0` at its default
value 36, which is within `[0, MAX_PITCH_0]`, a Press of key 32 stores and
sends the note byte `60 + 36 + 32 = 128`, which is not below `0x80`. -/
theorem note_byte_not_below_0x80 :
    configured.MIDI_C0 = 60
      ∧ 0 ≤ key_32_down.pitch_0
      ∧ key_32_down.pitch_0 ≤ (MAX_PITCH_0 configured.KEYS_NUMBER : Nat)
      ∧ pressed_keys configured key_32_down = [32]
      ∧ (fill_queues configured key_32_down).note_ON_queue_len = 1
      ∧ (fill_queues configured key_32_down).note_ON_queue.length = 36
      ∧ queued_ON (fill_queues configured key_32_down) = [60 + 36 + 32]
      ∧ (fill_queues configured key_32_down).stray_ON = []
      ∧ sent configured key_32_down = some [0x90, 60 + 36 + 32, 0x40]
      ∧ ¬ (60 + 36 + 32 < 0x80) := by
  decide

theorem max_pitch_0_le (keysNumber : Nat) : MAX_PITCH_0 keysNumber ≤ 108 := by
  unfold MAX_PITCH_0 NOTE_NUMBER
  omega

/-- C22, amended: with `MIDI_C0 = 60`, for every `pitch_0` in
`[0, MAX_PITCH_0]`, in every call in which at most `KEYS_NUMBER` keys go down
and at most `KEYS_NUMBER` go up every write falls inside its queue and the
queues hold the note bytes of the keys that went down, respectively up; the
note byte of every key index `j` handled by `process_keys_MIDI` is the exact
integer `MIDI_C0 + pitch_0 + j`, without wraparound modulo 256, and it is
below `0x80` exactly when `pitch_0 + j < 68`. -/
theorem note_byte_exact (b : Build) (s : State) (hc : b.MIDI_C0 = 60)
    (h0 : 0 ≤ s.pitch_0) (h1 : s.pitch_0 ≤ (MAX_PITCH_0 b.KEYS_NUMBER : Nat)) :
    (in_bounds b s = true →
        (fill_queues b s).stray_ON = [] ∧ (fill_queues b s).stray_OFF = []
          ∧ queued_ON (fill_queues b s) = (pressed_keys b s).map (note_of b s)
          ∧ queued_OFF (fill_queues b s) = (released_keys b s).map (note_of b s))
      ∧ (∀ j, handled b j = true →
          (note_of b s j : Int) = 60 + s.pitch_0 + (j : Int)
            ∧ (note_of b s j < 0x80 ↔ s.pitch_0 + (j : Int) < 68)) := by
  refine ⟨fill_queues_in_bounds b s, ?_⟩
  intro j hj
  have hj48 : j < 48 := by
    simp only [handled, Bool.or_eq_true, Bool.and_eq_true, decide_eq_true_eq] at hj
    omega
  have hm : ((MAX_PITCH_0 b.KEYS_NUMBER : Nat) : Int) ≤ 108 := by
    exact_mod_cast max_pitch_0_le b.KEYS_NUMBER
  have he := note_of_exact b s j (by rw [hc]; omega) (by rw [hc]; push_cast; omega) hj48
  rw [hc] at he
  push_cast at he
  refine ⟨he, ?_⟩
  constructor
  · intro h; omega
  · intro h; omega

theorem note_byte_exact_witness :
    configured.MIDI_C0 = 60
      ∧ in_bounds configured chord = true
      ∧ queued_ON (fill_queues configured chord) = [60 + 36 + 13, 60 + 36 + 30]
      ∧ (note_of configured key_32_down 32 : Int) = 60 + key_32_down.pitch_0 + ((32 : Nat) : Int)
      ∧ (note_of configured key_0_down 0 < 0x80 ↔ key_0_down.pitch_0 + ((0 : Nat) : Int) < 68) :=
  ⟨rfl, by decide,
    ((note_byte_exact configured chord rfl (by decide) (by decide)).1 (by decide)).2.2.1,
    ((note_byte_exact configured key_32_down rfl (by decide) (by decide)).2 32
      (by decide)).1,
    ((note_byte_exact configured key_0_down rfl (by decide) (by decide)).2 0
      (by decide)).2⟩

/-! ## A key held across a shift of pitch_0 -/

/-- C23, as stated, fails: key 0 goes down with `pitch_0 = 36` and is sent as
note 96; while it is held, `process_settings` shifts `pitch_0` up one octave,
to 48; when the key goes up the note sent with velocity `0x00` is 108, not
96. -/
theorem release_note_differs_after_shift :
    keys_trace configured [press_key_0, shift_octave_up, release_key_0] (idle 36)
        = some [[0x90, 96, 0x40], [], [0x90, 108, 0x00]]
      ∧ midi_loop configured press_key_0 (idle 36) = some key_0_held
      ∧ (midi_loop configured shift_octave_up key_0_held).map State.pitch_0 = some 48
      ∧ ¬ ((108 : Nat) = 96) := by
  decide

theorem pair_in_flatMap (f : Nat → Nat) (v j : Nat) (keys : List Nat) (h : j ∈ keys) :
    ∃ pre post, keys.flatMap (fun i => [f i, v]) = pre ++ [f j, v] ++ post := by
  obtain ⟨l1, l2, hl⟩ := List.append_of_mem h
  refine ⟨l1.flatMap (fun i => [f i, v]), l2.flatMap (fun i => [f i, v]), ?_⟩
  rw [hl, List.flatMap_append, List.flatMap_cons, List.append_assoc]

theorem sent_eq_flatMap (b : Build) (s : State) (hb : in_bounds b s = true)
    (h : pressed_keys b s ++ released_keys b s ≠ []) :
    sent b s
      = some ([(MIDI_MSG_NOTE_ON ||| b.MIDI_CHANNEL) % 256]
        ++ (pressed_keys b s).flatMap (fun j => [note_of b s j, 0x40])
        ++ (released_keys b s).flatMap (fun j => [note_of b s j, 0x00])) := by
  have h' : (pressed_keys b s ++ released_keys b s).length ≠ 0 :=
    fun hl => h (List.length_eq_zero.mp hl)
  rw [List.length_append] at h'
  rw [sent_eq, if_pos hb, frame, flatMap_map, flatMap_map]
  simp only [List.length_map]
  rw [if_pos (by omega)]

/-- C23, amended: for a key `j` that goes down in the cycle where
`process_keys_MIDI` is called in state `c1` and goes up in a later cycle
where it is called in state `c2`, at most `KEYS_NUMBER` keys going down and
at most `KEYS_NUMBER` going up in each of the two cycles, the call in `c1`
sends the pair `(note_of c1 j, 0x40)` and the call in `c2` sends the pair
`(note_of c2 j, 0x00)`, each note being computed from the `pitch_0` of its own
cycle.  The two notes are equal when `pitch_0` is the same in the two
cycles; when `MIDI_C0 + pitch_0 + key index` fits a byte in both cycles, the
note of the release is the note of the press plus the shift of `pitch_0`
between the two cycles, so the notes differ as soon as `pitch_0` does. -/
theorem release_note_follows_pitch_0 (b : Build) (c1 c2 : State) (j : Nat)
    (hb1 : in_bounds b c1 = true) (hb2 : in_bounds b c2 = true)
    (hd : j ∈ pressed_keys b c1) (hu : j ∈ released_keys b c2) :
    (∃ pre post, sent b c1 = some (pre ++ [note_of b c1 j, 0x40] ++ post))
      ∧ (∃ pre post, sent b c2 = some (pre ++ [note_of b c2 j, 0x00] ++ post))
      ∧ (c2.pitch_0 = c1.pitch_0 → note_of b c2 j = note_of b c1 j)
      ∧ (0 ≤ (b.MIDI_C0 : Int) + c1.pitch_0 → (b.MIDI_C0 : Int) + c1.pitch_0 + 47 < 256 →
          0 ≤ (b.MIDI_C0 : Int) + c2.pitch_0 → (b.MIDI_C0 : Int) + c2.pitch_0 + 47 < 256 →
          (note_of b c2 j : Int) = (note_of b c1 j : Int) + (c2.pitch_0 - c1.pitch_0)) := by
  have hj48 : j < 48 := List.mem_range.mp (List.mem_filter.mp hd).1
  refine ⟨?_, ?_, ?_, ?_⟩
  · have hne : pressed_keys b c1 ++ released_keys b c1 ≠ [] := by
      intro h
      have := List.append_eq_nil.mp h
      rw [this.1] at hd
      exact List.not_mem_nil j hd
    obtain ⟨pre, post, hpp⟩ := pair_in_flatMap (note_of b c1) 0x40 j _ hd
    refine ⟨[(MIDI_MSG_NOTE_ON ||| b.MIDI_CHANNEL) % 256] ++ pre,
      post ++ (released_keys b c1).flatMap (fun i => [note_of b c1 i, 0x00]), ?_⟩
    rw [sent_eq_flatMap b c1 hb1 hne, hpp]
    simp only [List.append_assoc]
  · have hne : pressed_keys b c2 ++ released_keys b c2 ≠ [] := by
      intro h
      have := List.append_eq_nil.mp h
      rw [this.2] at hu
      exact List.not_mem_nil j hu
    obtain ⟨pre, post, hpp⟩ := pair_in_flatMap (note_of b c2) 0x00 j _ hu
    refine ⟨[(MIDI_MSG_NOTE_ON ||| b.MIDI_CHANNEL) % 256]
        ++ (pressed_keys b c2).flatMap (fun i => [note_of b c2 i, 0x40]) ++ pre, post, ?_⟩
    rw [sent_eq_flatMap b c2 hb2 hne, hpp]
    simp only [List.append_assoc]
  · intro hp
    exact note_of_congr b c2 c1 hp j
  · intro a1 a2 a3 a4
    rw [note_of_exact b c1 j a1 a2 hj48, note_of_exact b c2 j a3 a4 hj48]
    omega

theorem release_note_follows_pitch_0_witness :
    (in_bounds configured key_0_down = true ∧ in_bounds configured key_0_up_pitch_48 = true
        ∧ 0 ∈ pressed_keys configured key_0_down
        ∧ 0 ∈ released_keys configured key_0_up_pitch_48)
      ∧ (∃ pre post, sent configured key_0_down
          = some (pre ++ [note_of configured key_0_down 0, 0x40] ++ post))
      ∧ (∃ pre post, sent configured key_0_up_pitch_48
          = some (pre ++ [note_of configured key_0_up_pitch_48 0, 0x00] ++ post))
      ∧ (note_of configured key_0_up_pitch_48 0 : Int)
        = (note_of configured key_0_down 0 : Int)
          + (key_0_up_pitch_48.pitch_0 - key_0_down.pitch_0) :=
  ⟨⟨by decide, by decide, by decide, by decide⟩,
    (release_note_follows_pitch_0 configured key_0_down key_0_up_pitch_48 0 (by decide)
      (by decide) (by decide) (by decide)).1,
    (release_note_follows_pitch_0 configured key_0_down key_0_up_pitch_48 0 (by decide)
      (by decide) (by decide) (by decide)).2.1,
    (release_note_follows_pitch_0 configured key_0_down key_0_up_pitch_48 0 (by decide)
      (by decide) (by decide) (by decide)).2.2.2 (by decide) (by decide) (by decide)
      (by decide)⟩

end MidiKeyboard
